import Mathlib

/-!
# Verification of the workout-tracker sync layer

Shallow embedding of the offline-capable Google-Sheets sync layer of the
workout-tracker repository, together with proofs and refutations of the
frozen specification claims.

The repository contains several independent variants of the same logic:

* `src/services/googleSheets.ts` — the TypeScript service (normalizeDate,
  getColumnLetter, getWorkoutData, updateWorkoutData via batchUpdate);
* `src/unnamed/part_002` — an older TypeScript variant of the same service
  (its own normalizeDate, per-cell updateCell writes);
* `src/services/googleSheets.js` — the JavaScript service with the offline
  cache/queue policy (getWorkoutData, processWorkoutRows, processCardioRows,
  updateWorkoutData, syncQueue);
* `src/unnamed/part_000` — the WorkoutTracker component (loadWorkoutData,
  syncPendingChanges, handleSave);
* `src/types/workout.ts` — parseWorkoutRow / parseCardioRow / formatSheetData.

Modelling conventions:

* a spreadsheet row is a `List String`; a cell read `row[i]` that is out of
  bounds yields `""` (JavaScript `undefined` and the empty string behave
  identically in every use site modelled here: both are falsy, both parse to
  NaN, both are replaced by defaults);
* JavaScript numbers are modelled as `Int` (reps, rir, counts) or `ℚ`
  (weights and generic cell values); the decimal-representable rationals are
  exactly the values an exact binary/decimal float can hold, so printing and
  reparsing is stated for those;
* `parseInt` / `parseFloat` / `Number` are modelled on decimal notation
  without exponent or hex forms, which covers every cell this code produces
  or reads;
* the effect of a function (network requests issued, queue writes, cache
  writes) is returned explicitly as data.
-/

namespace WorkoutTracker

/-! ## JavaScript string and number primitives -/

/-- JavaScript truthiness of a string cell: the empty string (and a missing
cell, which we model as `""`) is falsy, everything else is truthy. -/
def jsTruthy (s : String) : Bool := s ≠ ""

/-- Read cell `i` of a row; JavaScript yields `undefined` past the end, which
this model merges with the empty string. -/
def cell (row : List String) (i : Nat) : String := row.getD i ""

/-- `trim` on a character list (both ends), as JavaScript/Lean `trim`. -/
def trimList (cs : List Char) : List Char :=
  ((cs.dropWhile Char.isWhitespace).reverse.dropWhile Char.isWhitespace).reverse

/-- `trim` on a string (kernel-reducible form). -/
def trimStr (s : String) : String := (trimList s.toList).asString

/-- `toLowerCase` on a string (kernel-reducible form). -/
def toLowerStr (s : String) : String := (s.toList.map Char.toLower).asString

/-- `split(sep)` for a single-character separator (JavaScript semantics:
empty pieces are preserved). -/
def splitOnChar (sep : Char) (cs : List Char) : List (List Char) :=
  cs.foldr (fun c acc =>
    match acc with
    | [] => [[c]]
    | g :: rest => if c = sep then [] :: g :: rest else (c :: g) :: rest) [[]]

/-- Numeric value of a decimal digit character. -/
def digitVal (c : Char) : Nat := c.toNat - 48

/-- The decimal digit character for `d < 10`. -/
def digitChar (d : Nat) : Char := Char.ofNat (48 + d)

/-- Little-endian decimal digits of `n`, with explicit fuel so that the
definition is structural and kernel-reducible. -/
def natDigitsRevFuel : Nat → Nat → List Nat
  | 0, _ => []
  | _ + 1, 0 => []
  | fuel + 1, n => n % 10 :: natDigitsRevFuel fuel (n / 10)

/-- Little-endian decimal digits of `n` (empty for `0`). -/
def natDigitsRev (n : Nat) : List Nat := natDigitsRevFuel n n

/-- Decimal rendering of a natural number, as JavaScript `toString` prints
it. -/
def natToString (n : Nat) : String :=
  if n = 0 then "0" else ((natDigitsRev n).reverse.map digitChar).asString

/-- Decimal rendering of an integer, as JavaScript `toString` prints it. -/
def intToString (i : Int) : String :=
  if i < 0 then "-" ++ natToString i.natAbs else natToString i.natAbs

/-- Value of a big-endian digit list (the usual left fold). -/
def digitsToNat (ds : List Nat) : Nat := ds.foldl (fun a d => 10 * a + d) 0

/-- Value of a little-endian digit list. -/
def valLE : List Nat → Nat
  | [] => 0
  | d :: ds => d + 10 * valLE ds

/-- Exactly `k` little-endian decimal digits of `n` (the low `k` digits,
zero-padded). -/
def natDigitsFixed : Nat → Nat → List Nat
  | 0, _ => []
  | k + 1, n => n % 10 :: natDigitsFixed k (n / 10)

/-- Optional leading sign of a character stream, as `parseInt`/`parseFloat`
consume it. -/
def splitSign (cs : List Char) : Int × List Char :=
  match cs with
  | [] => (1, [])
  | c :: rest =>
      if c = '-' then (-1, rest)
      else if c = '+' then (1, rest)
      else (1, c :: rest)

/-- JavaScript `parseInt` (radix 10) on a character stream: skip leading
whitespace, optional sign, then the maximal run of decimal digits; trailing
characters are ignored; `none` models `NaN`. -/
def jsParseIntList (l : List Char) : Option Int :=
  let cs := l.dropWhile Char.isWhitespace
  let sc := splitSign cs
  let ds := (sc.2.takeWhile Char.isDigit).map digitVal
  if ds.isEmpty then none else some (sc.1 * (digitsToNat ds : Int))

/-- JavaScript `parseInt(s)` (radix 10). -/
def jsParseInt (s : String) : Option Int := jsParseIntList s.toList

/-- The fraction digits after a decimal point, if the remaining input starts
with `.`. -/
def fracDigitsAfterDot (rest : List Char) : List Char :=
  match rest with
  | [] => []
  | c :: r => if c = '.' then r.takeWhile Char.isDigit else []

/-- JavaScript `parseFloat` on a character stream: skip leading whitespace,
optional sign, integer digits, optional `.` plus fraction digits; trailing
characters are ignored; `none` models `NaN`. -/
def jsParseFloatCore (l : List Char) : Option ℚ :=
  let cs := l.dropWhile Char.isWhitespace
  let sc := splitSign cs
  let intDs := sc.2.takeWhile Char.isDigit
  let rest := sc.2.dropWhile Char.isDigit
  let fracDs := fracDigitsAfterDot rest
  if intDs.isEmpty && fracDs.isEmpty then none
  else
    some (mkRat (sc.1 * ((digitsToNat (intDs.map digitVal) : Int) * (10 ^ fracDs.length) +
      (digitsToNat (fracDs.map digitVal) : Int))) (10 ^ fracDs.length))

/-- JavaScript `parseFloat(s)` on plain decimal notation (exponent and hex
forms never occur in this data and are not modelled). -/
def jsParseFloat (s : String) : Option ℚ := jsParseFloatCore s.toList

/-- JavaScript `Number(s)` on plain decimal notation: the whole (trimmed)
string must be a decimal literal; the empty/whitespace-only string is `0`;
`none` models `NaN`. -/
def jsNumber (s : String) : Option ℚ :=
  let cs := trimList s.toList
  if cs.isEmpty then some 0
  else
    let sc := splitSign cs
    let intDs := sc.2.takeWhile Char.isDigit
    let rest := sc.2.dropWhile Char.isDigit
    match rest with
    | [] =>
        if intDs.isEmpty then none
        else some (mkRat (sc.1 * (digitsToNat (intDs.map digitVal) : Int)) 1)
    | c :: r =>
        if c = '.' then
          let fracDs := r.takeWhile Char.isDigit
          let rest2 := r.dropWhile Char.isDigit
          if rest2.isEmpty && !(intDs.isEmpty && fracDs.isEmpty) then
            some (mkRat (sc.1 * ((digitsToNat (intDs.map digitVal) : Int) *
              (10 ^ fracDs.length) + (digitsToNat (fracDs.map digitVal) : Int)))
              (10 ^ fracDs.length))
          else none
        else none

/-- `parseInt(s) || 0` -/
def parseIntOrZero (s : String) : Int := (jsParseInt s).getD 0

/-- `parseFloat(s) || 0` -/
def parseFloatOrZero (s : String) : ℚ := (jsParseFloat s).getD 0

/-! ### Decimal rationals and JavaScript number printing -/

/-- Multiplicity of `p` in `n`, with explicit fuel (kernel-reducible). -/
def padicFuel : Nat → Nat → Nat → Nat
  | 0, _, _ => 0
  | fuel + 1, p, n =>
      if 2 ≤ p ∧ n ≠ 0 ∧ n % p = 0 then padicFuel fuel p (n / p) + 1 else 0

/-- Multiplicity of `p` in `n`. -/
def padicVal (p n : Nat) : Nat := padicFuel n p n

/-- A rational exactly representable in decimal notation (equivalently, the
exact value of a binary float): its reduced denominator has no prime factor
other than 2 and 5. -/
def IsDecimalRat (q : ℚ) : Prop :=
  q.den = 2 ^ padicVal 2 q.den * 5 ^ padicVal 5 q.den

instance : DecidablePred IsDecimalRat := fun q => by
  unfold IsDecimalRat; infer_instance

/-- Number of decimal fraction digits needed for `q`. -/
def decExp (q : ℚ) : Nat := max (padicVal 2 q.den) (padicVal 5 q.den)

/-- `|q|` scaled to an integer mantissa: `|num| * 10^decExp / den`. -/
def decNumAbs (q : ℚ) : Nat := q.num.natAbs * 10 ^ decExp q / q.den

/-- Big-endian digit list of `n` (a single `0` for zero), matching
`natToString`. -/
def natDigits (n : Nat) : List Nat :=
  if n = 0 then [0] else (natDigitsRev n).reverse

/-- JavaScript `toString` of a decimal-representable number: optional sign,
the integer part, then (when fraction digits are needed) `.` and exactly
`decExp q` fraction digits. -/
def ratToString (q : ℚ) : String :=
  let k := decExp q
  if k = 0 then intToString q.num
  else
    ((if q.num < 0 then ['-'] else []) ++
      (natDigits (decNumAbs q / 10 ^ k)).map digitChar ++
      '.' :: (natDigitsFixed k (decNumAbs q % 10 ^ k)).reverse.map digitChar).asString

/-! ## Domain data model (src/types/workout.ts)

`reps`/`rir` are integers and `weight` a rational, following the spec's data
model for `SetEntry` (the TypeScript type is `number` for all three; the
decoders below produce exactly these shapes). `rpe` is rational because the
JavaScript decoder parses it with `parseFloat`. -/

/-- A strength set (`Set` in workout.ts; renamed, `Set` is taken in Lean). -/
structure SetEntry where
  reps : Int
  weight : ℚ
  rir : Int
deriving Repr, DecidableEq

/-- An exercise entry (`Exercise` in workout.ts). -/
structure Exercise where
  name : String
  sets : List SetEntry
  notes : String
deriving Repr, DecidableEq

/-- A cardio session (`CardioSession` in workout.ts). -/
structure CardioSession where
  modality : String
  minutes : Int
  seconds : Int
  rpe : ℚ
  workRest : String
  watts : Int
  notes : String
deriving Repr, DecidableEq

/-- A full per-date record (`WorkoutData` in workout.ts). -/
structure WorkoutData where
  date : String
  exercises : List Exercise
  cardio : CardioSession
deriving Repr, DecidableEq

/-- The default cardio session returned when no cardio row matches. -/
def defaultCardio : CardioSession :=
  { modality := "", minutes := 0, seconds := 0, rpe := 0, workRest := "", watts := 0,
    notes := "" }

/-! ## Date normalizer -/

/-- Template-literal rendering of a `parseInt` result (`NaN` prints as
`"NaN"`). -/
def intOrNaN : Option Int → String
  | none => "NaN"
  | some i => intToString i

/-- `normalizeDate` of `src/services/googleSheets.ts`: trim, keep the last
space-separated token, and for a `/`-containing token rebuild it from
`parseInt` of the first two components (dropping leading zeros and any year
component). -/
def normalizeDate (dateStr : String) : String :=
  if dateStr = "" then ""
  else
    let d1 := trimList dateStr.toList
    let dateParts := splitOnChar ' ' d1
    let d2 := if dateParts.length > 1 then dateParts.getLastD [] else d1
    if d2.contains '/' then
      let parts := splitOnChar '/' d2
      intOrNaN (jsParseIntList (parts.getD 0 [])) ++ "/" ++
        intOrNaN (jsParseIntList (parts.getD 1 []))
    else d2.asString

/-- `normalizeDate` of `src/unnamed/part_002`: same trimming and token
selection, but a 2-component `m/d` token is returned verbatim (leading zeros
kept); only a 3-component `m/d/y` token is cut down to `m/d`. -/
def normalizeDate_v2 (dateStr : String) : String :=
  if dateStr = "" then ""
  else
    let d1 := trimList dateStr.toList
    let dateParts := splitOnChar ' ' d1
    let d2 := if dateParts.length > 1 then dateParts.getLastD [] else d1
    if d2.contains '/' then
      let parts := splitOnChar '/' d2
      if parts.length = 3 then
        (parts.getD 0 []).asString ++ "/" ++ (parts.getD 1 []).asString
      else d2.asString
    else d2.asString

/-- `parseDate`/`formatDate`: the `<month>/<day>` query key derived from a
calendar date. `new Date(...)` is environment-dependent, so the embedding
takes month and day as numbers. -/
def parseDate (month day : Int) : String := intToString month ++ "/" ++ intToString day

/-! ## Column letters -/

/-- `getColumnLetter` of `src/services/googleSheets.ts` (fuel-structured copy
of its `while (col >= 0) { letter = chr(65 + col % 26) + letter; col =
floor(col / 26) - 1 }` loop; the fuel only pays for kernel reducibility, the
loop count is bounded by `col`). -/
def getColumnLetterFuel : Nat → Nat → String
  | 0, col => String.singleton (Char.ofNat (65 + col % 26))
  | fuel + 1, col =>
      if col < 26 then String.singleton (Char.ofNat (65 + col % 26))
      else getColumnLetterFuel fuel (col / 26 - 1) ++
        String.singleton (Char.ofNat (65 + col % 26))

/-- Spreadsheet column letters for a zero-based column index
(googleSheets.ts `getColumnLetter`). -/
def getColumnLetter (col : Nat) : String := getColumnLetterFuel col col

/-- The column-letter derivation of `src/unnamed/part_002` `updateCell`:
`String.fromCharCode(65 + col)`, a single character. -/
def columnLetter_p2 (col : Nat) : String := String.singleton (Char.ofNat (65 + col))

/-- Value of a letter string read back as a bijective base-26 numeral
(`"A"` = 1, `"Z"` = 26, `"AA"` = 27, ...). -/
def lettersVal (l : List Char) : Nat := l.foldl (fun a c => a * 26 + (c.toNat - 64)) 0

/-- Zero-based column index denoted by a letter string. -/
def lettersToIndex (s : String) : Nat := lettersVal s.toList - 1

/-! ## googleSheets.ts — read path -/

/-- The 3 fixed (reps, weight, rir) column triplets of the session log
(googleSheets.ts `setGroups`). -/
def setGroups : List (Nat × Nat × Nat) := [(14, 15, 16), (17, 18, 19), (20, 21, 22)]

/-- Whether a triplet contributes a set: its reps cell is truthy and
`Number(reps)` is not `NaN`. -/
def includeSet (row : List String) (g : Nat × Nat × Nat) : Bool :=
  jsTruthy (cell row g.1) && (jsNumber (cell row g.1)).isSome

/-- The set decoded from one triplet. -/
def setOfGroup (row : List String) (g : Nat × Nat × Nat) : SetEntry :=
  { reps := parseIntOrZero (cell row g.1)
    weight := parseFloatOrZero (cell row g.2.1)
    rir := parseIntOrZero (cell row g.2.2) }

/-- Sets decoded from one session-log row (googleSheets.ts `getWorkoutData`
inner loop). -/
def rowSetsTS (row : List String) : List SetEntry :=
  setGroups.filterMap (fun g => if includeSet row g then some (setOfGroup row g) else none)

/-- Exercises decoded from the fetched session-log grid for one query key
(googleSheets.ts `getWorkoutData`). -/
def processExercisesTS (workoutRows : List (List String)) (parsedDate : String) :
    List Exercise :=
  let matching := workoutRows.filter (fun row =>
    jsTruthy (cell row 6) && (normalizeDate (cell row 6) == parsedDate))
  matching.filterMap (fun row =>
    if jsTruthy (cell row 8) then
      some { name := trimStr (cell row 8), sets := rowSetsTS row, notes := cell row 37 }
    else none)

/-- The cardio session decoded from the fetched cardio-log grid
(googleSheets.ts `getWorkoutData`), defaulting every field when no row
matches. -/
def cardioFromRowsTS (cardioRows : List (List String)) (parsedDate : String) :
    CardioSession :=
  match cardioRows.find? (fun row =>
      jsTruthy (cell row 5) && (normalizeDate (cell row 5) == parsedDate)) with
  | some row =>
      { modality := cell row 8
        minutes := parseIntOrZero (cell row 11)
        seconds := parseIntOrZero (cell row 12)
        rpe := ((parseIntOrZero (cell row 16) : Int) : ℚ)
        workRest := cell row 17
        watts := parseIntOrZero (cell row 24)
        notes := cell row 63 }
  | none => defaultCardio

/-- `getWorkoutData` of googleSheets.ts after both fetches succeed, as a pure
function of the fetched grids. `parsedDate` is `parseDate(new Date(date))`,
passed in because `Date` parsing is environment-dependent. -/
def getWorkoutDataTS (date parsedDate : String)
    (workoutRows cardioRows : List (List String)) : WorkoutData :=
  { date := date
    exercises := processExercisesTS workoutRows parsedDate
    cardio := cardioFromRowsTS cardioRows parsedDate }

/-! ## googleSheets.ts — update path -/

/-- One `{range, values: [[value]]}` entry of a `values:batchUpdate` body. -/
structure RangeWrite where
  range : String
  value : String
deriving Repr, DecidableEq

/-- The `dateRows` object of googleSheets.ts `updateWorkoutData`: pairs
(trimmed lowercased name cell, 1-based row index) of the rows whose
normalized date matches, in row order; a later row overwrites an earlier one
with the same key, which the last-match lookup below reproduces. -/
def dateRowsTS (rows : List (List String)) (parsedDate : String) : List (String × Nat) :=
  (rows.enum.filterMap (fun p =>
    if normalizeDate (cell p.2 6) = parsedDate then
      some (toLowerStr (trimStr (cell p.2 8)), p.1 + 1)
    else none))

/-- JavaScript object lookup over the association list (last write wins). -/
def lookupLast (l : List (String × Nat)) (k : String) : Option Nat :=
  (l.reverse.find? (fun p => p.1 == k)).map (fun p => p.2)

/-- The batched writes for one located exercise: one cell per set field at
`baseCol = 14 + 3·setIndex`, plus a notes write when the exercise has
notes. -/
def exerciseUpdatesTS (rowIndex : Nat) (e : Exercise) : List RangeWrite :=
  (e.sets.enum.bind (fun p =>
    let baseCol := 14 + p.1 * 3
    [ { range := "'workout log'!" ++ getColumnLetter baseCol ++ natToString rowIndex
        value := intToString p.2.reps },
      { range := "'workout log'!" ++ getColumnLetter (baseCol + 1) ++ natToString rowIndex
        value := ratToString p.2.weight },
      { range := "'workout log'!" ++ getColumnLetter (baseCol + 2) ++ natToString rowIndex
        value := intToString p.2.rir } ])) ++
  (if e.notes ≠ "" then
    [{ range := "'workout log'!AL" ++ natToString rowIndex, value := e.notes }]
  else [])

/-- The session-log portion of googleSheets.ts `updateWorkoutData`: per
exercise, locate the row via `dateRows` and emit its cell writes; an
unlocated exercise contributes nothing. -/
def workoutUpdatesTS (workoutRows : List (List String)) (parsedDate : String)
    (exercises : List Exercise) : List RangeWrite :=
  let dateRows := dateRowsTS workoutRows parsedDate
  exercises.bind (fun e =>
    match lookupLast dateRows (toLowerStr e.name) with
    | some rowIndex => exerciseUpdatesTS rowIndex e
    | none => [])

/-- The cardio portion of googleSheets.ts `updateWorkoutData`. -/
def cardioUpdatesTS (cardioRows : List (List String)) (parsedDate : String)
    (cardio : CardioSession) : List RangeWrite :=
  match cardioRows.findIdx? (fun row => normalizeDate (cell row 5) == parsedDate) with
  | some idx =>
      [(8, cardio.modality), (11, intToString cardio.minutes),
       (12, intToString cardio.seconds), (16, ratToString cardio.rpe),
       (17, cardio.workRest), (24, intToString cardio.watts),
       (63, cardio.notes)].map (fun u =>
        { range := "'cardio log'!" ++ getColumnLetter u.1 ++ natToString (idx + 1)
          value := u.2 })
  | none => []

/-- `updateWorkoutData` of googleSheets.ts as the two batch-update bodies it
issues. The function has no append operation: every write it emits is a
range write against a located row. -/
structure UpdateRunTS where
  workoutBatch : List RangeWrite
  cardioBatch : List RangeWrite
deriving Repr, DecidableEq

def updateWorkoutDataTS (parsedDate : String)
    (workoutRows cardioRows : List (List String)) (w : WorkoutData) : UpdateRunTS :=
  { workoutBatch := workoutUpdatesTS workoutRows parsedDate w.exercises
    cardioBatch := cardioUpdatesTS cardioRows parsedDate w.cardio }

/-! ## part_002 — update path -/

/-- A single-cell PUT issued by part_002 `updateCell`. -/
def updateCell_p2 (row : Nat) (col : Nat) (value : String) : RangeWrite :=
  { range := columnLetter_p2 col ++ natToString row, value := value }

/-- The session-log portion of part_002 `updateWorkoutData`: rows are located
by raw strict equality of the date cell and the exercise name (no
normalization, no case folding); an unlocated exercise contributes
nothing. -/
def workoutUpdates_p2 (workoutRows : List (List String)) (parsedDate : String)
    (exercises : List Exercise) : List RangeWrite :=
  exercises.bind (fun e =>
    match workoutRows.findIdx? (fun row =>
        cell row 6 == parsedDate && cell row 8 == e.name) with
    | some rowIndex =>
        e.sets.enum.bind (fun p =>
          let baseCol := p.1 * 3 + 14
          [updateCell_p2 (rowIndex + 1) baseCol (intToString p.2.reps),
           updateCell_p2 (rowIndex + 1) (baseCol + 1) (ratToString p.2.weight),
           updateCell_p2 (rowIndex + 1) (baseCol + 2) (intToString p.2.rir)])
    | none => [])

/-! ## googleSheets.js — date matching

`matchesDate` uses three small regexes; they are modelled operationally:
`targetDate.match(/(\d{1,2}\/\d{1,2})/)` is a left-to-right scan with greedy
1-or-2-digit groups and backtracking, `^[A-Za-z]{3}\s+` strips three ASCII
letters plus the following whitespace run, `\/\d{4}$` strips a trailing
slash-plus-4-digit year. -/

/-- Greedy 1-or-2-digit match after the `/`. -/
def dmAfterSlash (cs : List Char) : Option (List Char) :=
  match cs with
  | c1 :: c2 :: _ =>
      if c1.isDigit && c2.isDigit then some [c1, c2]
      else if c1.isDigit then some [c1] else none
  | [c1] => if c1.isDigit then some [c1] else none
  | [] => none

/-- Attempt `\d{1,2}\/\d{1,2}` at the current position (greedy first group,
then backtrack to one digit). -/
def matchDMHere (cs : List Char) : Option (List Char) :=
  match cs with
  | c1 :: c2 :: rest =>
      if c1.isDigit then
        if c2.isDigit then
          match rest with
          | '/' :: r => (dmAfterSlash r).map (fun ds => [c1, c2, '/'] ++ ds)
          | _ =>
              if c2 = '/' then (dmAfterSlash rest).map (fun ds => [c1, '/'] ++ ds)
              else none
        else if c2 = '/' then (dmAfterSlash rest).map (fun ds => [c1, '/'] ++ ds)
        else none
      else none
  | _ => none

/-- First match of `\d{1,2}\/\d{1,2}` anywhere in the input. -/
def findDM : List Char → Option (List Char)
  | [] => none
  | c :: rest =>
      match matchDMHere (c :: rest) with
      | some m => some m
      | none => findDM rest

/-- `replace(/^[A-Za-z]{3}\s+/, '')`. -/
def stripWeekdayPrefix (cs : List Char) : List Char :=
  match cs with
  | a :: b :: c :: d :: rest =>
      if a.isAlpha && b.isAlpha && c.isAlpha && d.isWhitespace then
        (d :: rest).dropWhile Char.isWhitespace
      else cs
  | _ => cs

/-- `replace(/\/\d{4}$/, '')`. -/
def stripYearSuffix (cs : List Char) : List Char :=
  match cs.reverse with
  | d1 :: d2 :: d3 :: d4 :: s :: rest =>
      if d1.isDigit && d2.isDigit && d3.isDigit && d4.isDigit && s = '/' then rest.reverse
      else cs
  | _ => cs

/-- `matchesDate` of googleSheets.js. -/
def matchesDate (rowDate targetDate : String) : Bool :=
  if !jsTruthy rowDate then false
  else
    match findDM targetDate.toList with
    | none => false
    | some m =>
        stripYearSuffix (stripWeekdayPrefix (trimList rowDate.toList)) = m

/-! ## googleSheets.js — read path -/

/-- `processWorkoutRows` of googleSheets.js: skip the header row, select rows
by `matchesDate` on column 6, read the declared set count from column 13 and
include a triplet whenever any of its three cells is truthy; only exercises
with at least one set are kept. -/
def processWorkoutRowsJS (rows : List (List String)) (targetDate : String) :
    List Exercise :=
  let workoutRows := (rows.drop 1).filter (fun row => matchesDate (cell row 6) targetDate)
  workoutRows.filterMap (fun row =>
    if !jsTruthy (cell row 8) then none
    else
      let totalSets := (parseIntOrZero (cell row 13)).toNat
      let sets := (List.range totalSets).filterMap (fun setNum =>
        let idx := 14 + setNum * 3
        if jsTruthy (cell row idx) || jsTruthy (cell row (idx + 1)) ||
            jsTruthy (cell row (idx + 2)) then
          some { reps := parseIntOrZero (cell row idx)
                 weight := parseFloatOrZero (cell row (idx + 1))
                 rir := parseIntOrZero (cell row (idx + 2)) }
        else none)
      if sets.length > 0 then
        some { name := cell row 8, sets := sets, notes := cell row 37 }
      else none)

/-- `processCardioRows` of googleSheets.js (notes live in column 64 here). -/
def processCardioRowsJS (rows : List (List String)) (targetDate : String) :
    Option CardioSession :=
  ((rows.drop 1).find? (fun row => matchesDate (cell row 5) targetDate)).map (fun row =>
    { modality := cell row 8
      minutes := parseIntOrZero (cell row 11)
      seconds := parseIntOrZero (cell row 12)
      rpe := parseFloatOrZero (cell row 16)
      workRest := cell row 17
      watts := parseIntOrZero (cell row 24)
      notes := cell row 64 })

/-- `{exercises, cardio}` as returned and cached by the js service read. -/
structure WorkoutBundle where
  exercises : List Exercise
  cardio : CardioSession
deriving Repr, DecidableEq

/-- Outcome of one `fetch`, supplied as an oracle: a success response with the
`values` grid, a non-ok response, or a thrown network error. -/
inductive FetchOutcome
  | ok (values : List (List String))
  | badStatus
  | netThrow
deriving Repr, DecidableEq

/-- Return value or thrown error of a js `getWorkoutData` call. -/
inductive ReadResult
  | ok (bundle : WorkoutBundle)
  | error (message : String)
deriving Repr, DecidableEq

/-- What one js `getWorkoutData` call did: its return value or thrown error,
the number of network requests it made, and the cache write it performed.
The local cache is keyed by the raw date (`localStorage` key
`workout_<date>`, the constant prefix elided). -/
structure ReadRunJS where
  result : ReadResult
  networkCalls : Nat
  cacheWrite : Option (String × WorkoutBundle)
deriving Repr, DecidableEq

/-- `getWorkoutData` of googleSheets.js. `targetDate` is `formatDate(date)`
(environment-dependent `Date` parsing, passed in). -/
def getWorkoutDataJS (online : Bool) (cache : String → Option WorkoutBundle)
    (date targetDate : String) (workoutFetch cardioFetch : FetchOutcome) : ReadRunJS :=
  if !online then
    match cache date with
    | some cached => { result := .ok cached, networkCalls := 0, cacheWrite := none }
    | none =>
        { result := .error "Offline and no cached data available"
          networkCalls := 0, cacheWrite := none }
  else
    match workoutFetch with
    | .ok workoutValues =>
        let exercises := processWorkoutRowsJS workoutValues targetDate
        let cardio :=
          match cardioFetch with
          | .ok cardioValues => processCardioRowsJS cardioValues targetDate
          | _ => none
        let bundle : WorkoutBundle :=
          { exercises := exercises, cardio := cardio.getD defaultCardio }
        { result := .ok bundle, networkCalls := 2, cacheWrite := some (date, bundle) }
    | .badStatus =>
        match cache date with
        | some cached => { result := .ok cached, networkCalls := 1, cacheWrite := none }
        | none =>
            { result := .error "Failed to fetch workout data"
              networkCalls := 1, cacheWrite := none }
    | .netThrow =>
        match cache date with
        | some cached => { result := .ok cached, networkCalls := 1, cacheWrite := none }
        | none => { result := .error "network error", networkCalls := 1, cacheWrite := none }

/-! ## googleSheets.js — write path -/

/-- A queued change (`syncQueue.add({date, workoutData})`). -/
structure SyncQueueItem where
  date : String
  workoutData : WorkoutData
deriving Repr, DecidableEq

/-- How a js `updateWorkoutData` call ended. -/
inductive UpdateResult
  | offline
  | success
  | thrown
deriving Repr, DecidableEq

/-- The session-log append row built by js `updateWorkoutData` for one
exercise. -/
def encodeWorkoutRowJS (formattedDate : String) (e : Exercise) : List String :=
  let base := (((List.replicate 38 "").set 6 formattedDate).set 8 e.name).set 13
    (natToString e.sets.length)
  let withSets := e.sets.enum.foldl (fun r p =>
    let b := 14 + p.1 * 3
    ((r.set b (intToString p.2.reps)).set (b + 1) (ratToString p.2.weight)).set (b + 2)
      (intToString p.2.rir)) base
  withSets.set 37 e.notes

/-- The cardio append row built by js `updateWorkoutData` (notes at 64). -/
def encodeCardioRowJS (formattedDate : String) (c : CardioSession) : List String :=
  ((((((((List.replicate 65 "").set 5 formattedDate).set 8 c.modality).set 11
    (intToString c.minutes)).set 12 (intToString c.seconds)).set 16
    (ratToString c.rpe)).set 17 c.workRest).set 24 (intToString c.watts)).set 64 c.notes

/-- `Object.values(cardio).some(v => v)`: some field of the cardio session is
truthy. -/
def cardioHasValue (c : CardioSession) : Bool :=
  jsTruthy c.modality || c.minutes != 0 || c.seconds != 0 || c.rpe != 0 ||
    jsTruthy c.workRest || c.watts != 0 || jsTruthy c.notes

/-- What one js `updateWorkoutData` call did: queue writes, its
return/thrown status, the append bodies it sent over the network, and the
`workout_<date>` cache write it performed. The write path contains no
`setCachedData` call in any branch, so `cacheWrite` is constructed as `none`
in every branch — recorded so that this absence is provable. -/
structure UpdateRunJS where
  queueAdds : List SyncQueueItem
  result : UpdateResult
  workoutRowsSent : List (List String)
  cardioRowSent : Option (List String)
  cacheWrite : Option (String × WorkoutBundle)
deriving Repr, DecidableEq

/-- `updateWorkoutData` of googleSheets.js. Offline: enqueue only (no cache
update). Online: append the session-log rows (skipped when there are no
exercises; a non-ok response or thrown fetch lands in the catch block, which
enqueues and rethrows); then append the cardio row (skipped when every
cardio field is falsy; a non-ok response is only logged and the call still
reports success; only a thrown fetch reaches the catch block). No branch
touches the local cache. -/
def updateWorkoutDataJS (online : Bool) (date formattedDate : String) (w : WorkoutData)
    (workoutOutcome cardioOutcome : FetchOutcome) : UpdateRunJS :=
  if !online then
    { queueAdds := [⟨date, w⟩], result := .offline
      workoutRowsSent := [], cardioRowSent := none, cacheWrite := none }
  else
    let wRows := w.exercises.map (encodeWorkoutRowJS formattedDate)
    let wSent := if w.exercises.isEmpty then [] else wRows
    if !w.exercises.isEmpty && !(workoutOutcome matches .ok _) then
      { queueAdds := [⟨date, w⟩], result := .thrown
        workoutRowsSent := wSent, cardioRowSent := none, cacheWrite := none }
    else if cardioHasValue w.cardio then
      let cRow := encodeCardioRowJS formattedDate w.cardio
      if cardioOutcome matches .netThrow then
        { queueAdds := [⟨date, w⟩], result := .thrown
          workoutRowsSent := wSent, cardioRowSent := some cRow, cacheWrite := none }
      else
        { queueAdds := [], result := .success
          workoutRowsSent := wSent, cardioRowSent := some cRow, cacheWrite := none }
    else
      { queueAdds := [], result := .success
        workoutRowsSent := wSent, cardioRowSent := none, cacheWrite := none }

/-! ## WorkoutTracker component (part_000) — pending-change queue and save -/

/-- A pending change recorded by the component while offline
(`{date, workout, timestamp}`). -/
structure PendingChange where
  date : String
  workout : WorkoutData
  timestamp : String
deriving Repr, DecidableEq

/-- The `for (const change of pendingChanges) await
googleSheetsService.saveWorkoutData(change)` loop of `syncPendingChanges`:
returns the changes applied before the first failure, and whether every
apply succeeded (a failed `apply` throws, aborting the loop). -/
def drainLoop (apply : PendingChange → Bool) : List PendingChange →
    List PendingChange × Bool
  | [] => ([], true)
  | c :: rest =>
      if apply c then
        let r := drainLoop apply rest
        (c :: r.1, r.2)
      else ([], false)

/-- `syncPendingChanges` of the WorkoutTracker component: do nothing when
offline or when the queue is empty; otherwise apply the queued changes in
FIFO order; the queue (state and `localStorage`) is cleared only in the
success path after the whole loop, and is left untouched when any apply
threw. Returns the new queue and the changes that were applied. -/
def syncPendingChanges (isOnline : Bool) (apply : PendingChange → Bool)
    (pendingChanges : List PendingChange) :
    List PendingChange × List PendingChange :=
  if !isOnline || pendingChanges.isEmpty then (pendingChanges, [])
  else
    let r := drainLoop apply pendingChanges
    if r.2 then ([], r.1) else (pendingChanges, r.1)

/-- The component state touched by `handleSave`: the pending queue (React
state mirrored to `localStorage`), the per-date workout cache
(`localStorage` keys `workout_<date>`, prefix elided), and the displayed
workout. -/
structure TrackerState where
  pendingChanges : List PendingChange
  cache : String → Option WorkoutData
  workout : Option WorkoutData

/-- Pointwise cache update (`localStorage.setItem`). -/
def setCache (cache : String → Option WorkoutData) (k : String) (v : WorkoutData) :
    String → Option WorkoutData :=
  fun k2 => if k2 = k then some v else cache k2

/-- What one `handleSave` call did: the new component state and the number of
remote service calls it made. -/
structure SaveRun where
  state : TrackerState
  networkCalls : Nat

/-- `handleSave` of the WorkoutTracker component. Online: save through the
service and reload (two service calls; the reloaded record is an oracle).
Offline: append exactly one pending change `{date, workout, timestamp}`,
persist the queue, write the record to the `workout_<date>` cache entry, and
show it — with no network use. -/
def handleSave (isOnline : Bool) (s : TrackerState) (date : String)
    (updatedWorkout : WorkoutData) (timestamp : String)
    (reloaded : Option WorkoutData) : SaveRun :=
  if isOnline then
    { state := { s with workout := reloaded }, networkCalls := 2 }
  else
    { state :=
        { pendingChanges := s.pendingChanges ++ [⟨date, updatedWorkout, timestamp⟩]
          cache := setCache s.cache date updatedWorkout
          workout := some updatedWorkout }
      networkCalls := 0 }

/-- The component state after one `loadWorkoutData` call: the shown workout,
the data-source tag (`'online'` / `'cache'` strings as in the source; it is
not reset at the start of a call, so the previous tag is threaded through),
the error banner (reset to `null` at the start, so this is the exact
post-state), the `workout_<date>` cache write performed, and the number of
service calls made. -/
structure LoadRun where
  workout : Option WorkoutData
  dataSource : String
  error : Option String
  cacheWrite : Option (String × WorkoutData)
  networkCalls : Nat
deriving Repr, DecidableEq

/-- `loadWorkoutData` of the WorkoutTracker component (part_000).
`fetched` is the oracle for `googleSheetsService.getWorkoutData(date)`
(`none` models a thrown error). Offline with cached data: show the cache.
Online: fetch, show and cache the result, or on a throw set the error
banner. Offline with no cached data: neither branch runs — nothing is
fetched, nothing thrown, no error set, and the previously shown workout and
tag stay in place. -/
def loadWorkoutData (isOnline : Bool) (cache : String → Option WorkoutData)
    (prevWorkout : Option WorkoutData) (prevDataSource : String) (date : String)
    (fetched : Option WorkoutData) : LoadRun :=
  let cachedData := cache date
  if !isOnline && cachedData.isSome then
    { workout := cachedData, dataSource := "cache", error := none,
      cacheWrite := none, networkCalls := 0 }
  else if isOnline then
    match fetched with
    | some data =>
        { workout := some data, dataSource := "online", error := none,
          cacheWrite := some (date, data), networkCalls := 1 }
    | none =>
        { workout := prevWorkout, dataSource := prevDataSource,
          error := some "Unable to load workout data. Please try again later.",
          cacheWrite := none, networkCalls := 1 }
  else
    { workout := prevWorkout, dataSource := prevDataSource, error := none,
      cacheWrite := none, networkCalls := 0 }

/-! ## workout.ts codec -/

/-- `parseWorkoutRow` triplets (workout.ts `setColumns`): columns 13–21. -/
def setColumnsWT : List (Nat × Nat × Nat) := [(13, 14, 15), (16, 17, 18), (19, 20, 21)]

/-- Sets decoded by workout.ts `parseWorkoutRow`: a triplet is included iff
its reps cell is truthy (this variant has no numeric check). -/
def rowSetsWT (row : List String) : List SetEntry :=
  setColumnsWT.filterMap (fun g =>
    if jsTruthy (cell row g.1) then
      some { reps := parseIntOrZero (cell row g.1)
             weight := parseFloatOrZero (cell row g.2.1)
             rir := parseIntOrZero (cell row g.2.2) }
    else none)

/-- `parseWorkoutRow` of workout.ts: `null` when the exercise-name cell
(column 8) is empty. -/
def parseWorkoutRow (row : List String) : Option Exercise :=
  if !jsTruthy (cell row 8) then none
  else some { name := cell row 8, sets := rowSetsWT row, notes := cell row 37 }

/-- `formatSheetData` of workout.ts: one 38-cell row per set carrying only
that set's (reps, weight, rir) at columns 13–15 (the exercise-name cell is
left empty), followed by one 65-cell cardio row. -/
def formatSheetData (exerciseData : List SetEntry) (cardioData : CardioSession) :
    List (List String) :=
  exerciseData.map (fun s =>
    (((List.replicate 38 "").set 13 (intToString s.reps)).set 14
      (ratToString s.weight)).set 15 (intToString s.rir)) ++
  [(((((((List.replicate 65 "").set 8 cardioData.modality).set 11
    (intToString cardioData.minutes)).set 12 (intToString cardioData.seconds)).set 16
    (ratToString cardioData.rpe)).set 17 cardioData.workRest).set 24
    (intToString cardioData.watts)).set 64 cardioData.notes]

/-- The whitespace-trimmed last space-separated token of a date string — the
shared first phase of both normalizers, named for the statements below. -/
def tokenOf (s : String) : List Char :=
  let d1 := trimList s.toList
  let parts := splitOnChar ' ' d1
  if parts.length > 1 then parts.getLastD [] else d1

/-! ## Concrete fixtures for witnesses and counterexamples -/

/-- A record with no exercises and default cardio. -/
def sampleWorkoutA : WorkoutData :=
  { date := "2024-03-14", exercises := [], cardio := defaultCardio }

/-- A record with one bench-press set. -/
def sampleWorkoutB : WorkoutData :=
  { date := "2024-03-15"
    exercises := [{ name := "Bench", sets := [{ reps := 5, weight := 100, rir := 2 }],
                    notes := "" }]
    cardio := defaultCardio }

/-- A cardio session with values, for the write-path scenarios. -/
def sampleCardioC : CardioSession :=
  { modality := "Row", minutes := 30, seconds := 0, rpe := 7, workRest := "1:1",
    watts := 150, notes := "easy" }

/-- A record with both a session-log and a cardio-log portion. -/
def sampleWorkoutC : WorkoutData :=
  { date := "2024-03-14"
    exercises := [{ name := "Bench", sets := [{ reps := 5, weight := 100, rir := 2 }],
                    notes := "" }]
    cardio := sampleCardioC }

/-- Queue fixtures: two pending changes. -/
def changeA : PendingChange := ⟨"2024-03-14", sampleWorkoutA, "t1"⟩

def changeB : PendingChange := ⟨"2024-03-15", sampleWorkoutB, "t2"⟩

/-- An apply oracle that succeeds exactly on date 2024-03-14 (so on `changeA`
but not `changeB`). -/
def applyAB : PendingChange → Bool := fun c => c.date == "2024-03-14"

/-- Component state with empty queue and empty cache. -/
def emptyTrackerState : TrackerState :=
  { pendingChanges := [], cache := fun _ => none, workout := none }

/-- A cached bundle and a one-entry cache for the read-path witnesses. -/
def sampleBundle : WorkoutBundle :=
  { exercises := [{ name := "Bench", sets := [{ reps := 5, weight := 100, rir := 2 }],
                    notes := "" }]
    cardio := defaultCardio }

def cacheWith314 : String → Option WorkoutBundle :=
  fun d => if d = "2024-03-14" then some sampleBundle else none

/-- A session-log row whose first triplet has a blank reps cell but a weight
value (columns: 6 = date, 8 = name, 13 = declared set count, 14-16 = first
triplet). -/
def blankRepsRow : List String :=
  ["", "", "", "", "", "", "3/14", "", "Bench", "", "", "", "", "1", "", "100", ""]

/-- A session-log row with a weekday-prefixed date cell, for row-discovery
scenarios. -/
def weekdayRow : List String :=
  ["", "", "", "", "", "", "Thu 3/14", "", "Bench"]

/-- The exercise being updated in the row-discovery scenarios (name differs
from the stored row only in case). -/
def benchExercise : Exercise :=
  { name := "bench", sets := [{ reps := 5, weight := 100, rir := 2 }], notes := "" }

/-- `FetchOutcome.isOk`: whether the oracle reports a success response. -/
def FetchOutcome.isOk : FetchOutcome → Bool
  | .ok _ => true
  | _ => false

/-! ## Auxiliary lemmas -/

theorem valLE_natDigitsRevFuel (fuel : Nat) :
    ∀ n : Nat, n ≤ fuel → valLE (natDigitsRevFuel fuel n) = n := by
  induction fuel with
  | zero => intro n hn; interval_cases n; rfl
  | succ f ih =>
      intro n hn
      cases n with
      | zero => rfl
      | succ m =>
          simp only [natDigitsRevFuel, valLE]
          have hdiv : (m + 1) / 10 ≤ f := by
            have : (m + 1) / 10 < m + 1 := Nat.div_lt_self (Nat.succ_pos m) (by omega)
            omega
          rw [ih _ hdiv]
          omega

theorem valLE_natDigitsRev (n : Nat) : valLE (natDigitsRev n) = n :=
  valLE_natDigitsRevFuel n n le_rfl

theorem digitsToNat_reverse (l : List Nat) : digitsToNat l.reverse = valLE l := by
  induction l with
  | nil => rfl
  | cons d ds ih =>
      simp only [List.reverse_cons, digitsToNat, List.foldl_append, List.foldl_cons,
        List.foldl_nil, valLE]
      simp only [digitsToNat] at ih
      rw [ih]
      omega

theorem natDigitsRevFuel_digits_lt (fuel : Nat) :
    ∀ n d, d ∈ natDigitsRevFuel fuel n → d < 10 := by
  induction fuel with
  | zero => intro n d h; simp [natDigitsRevFuel] at h
  | succ f ih =>
      intro n d h
      cases n with
      | zero => simp [natDigitsRevFuel] at h
      | succ m =>
          simp only [natDigitsRevFuel, List.mem_cons] at h
          rcases h with h | h
          · subst h; exact Nat.mod_lt _ (by omega)
          · exact ih _ _ h

theorem natDigitsRevFuel_ne_nil (fuel : Nat) (n : Nat) (h0 : 0 < n) (hle : n ≤ fuel) :
    natDigitsRevFuel fuel n ≠ [] := by
  cases fuel with
  | zero => omega
  | succ f =>
      cases n with
      | zero => omega
      | succ m => simp [natDigitsRevFuel]

/-- The leading (most significant) digit of a positive number is nonzero. -/
theorem natDigitsRevFuel_getLast_ne_zero (fuel : Nat) :
    ∀ n (h0 : 0 < n) (hle : n ≤ fuel) (hne : natDigitsRevFuel fuel n ≠ []),
      (natDigitsRevFuel fuel n).getLast hne ≠ 0 := by
  induction fuel with
  | zero => intro n h0 hle; omega
  | succ f ih =>
      intro n h0 hle hne
      cases n with
      | zero => omega
      | succ m =>
          by_cases hsmall : m + 1 < 10
          · have hdiv : (m + 1) / 10 = 0 := Nat.div_eq_of_lt hsmall
            simp only [natDigitsRevFuel, hdiv] at hne ⊢
            cases f with
            | zero =>
                simp only [natDigitsRevFuel, List.getLast_singleton]
                omega
            | succ f' =>
                simp only [natDigitsRevFuel, List.getLast_singleton]
                omega
          · have hdivpos : 0 < (m + 1) / 10 := Nat.div_pos (by omega) (by omega)
            have hdivle : (m + 1) / 10 ≤ f := by
              have : (m + 1) / 10 < m + 1 := Nat.div_lt_self (Nat.succ_pos m) (by omega)
              omega
            have hrec := natDigitsRevFuel_ne_nil f ((m + 1) / 10) hdivpos hdivle
            simp only [natDigitsRevFuel, List.getLast_cons hrec]
            exact ih _ hdivpos hdivle hrec

theorem valLE_natDigitsFixed (k : Nat) :
    ∀ n, n < 10 ^ k → valLE (natDigitsFixed k n) = n := by
  induction k with
  | zero => intro n hn; interval_cases n; rfl
  | succ j ih =>
      intro n hn
      simp only [natDigitsFixed, valLE]
      rw [ih (n / 10) (by
        have h10 : 10 ^ (j + 1) = 10 ^ j * 10 := by ring
        rw [h10] at hn
        exact Nat.div_lt_of_lt_mul (by omega))]
      omega

theorem natDigitsFixed_digits_lt (k : Nat) :
    ∀ n d, d ∈ natDigitsFixed k n → d < 10 := by
  induction k with
  | zero => intro n d h; simp [natDigitsFixed] at h
  | succ j ih =>
      intro n d h
      simp only [natDigitsFixed, List.mem_cons] at h
      rcases h with h | h
      · subst h; exact Nat.mod_lt _ (by omega)
      · exact ih _ _ h

theorem natDigitsFixed_length (k n : Nat) : (natDigitsFixed k n).length = k := by
  induction k generalizing n with
  | zero => rfl
  | succ j ih => simp [natDigitsFixed, ih]

/-- The `mkRat` encoding above is the textbook value
`sign · (intPart + fracPart / 10^fracLen)`. -/
theorem mkRat_decimal_val (sign : Int) (I F len : Nat) :
    mkRat (sign * ((I : Int) * (10 ^ len) + (F : Int))) (10 ^ len) =
      (sign : ℚ) * ((I : ℚ) + (F : ℚ) / (10 ^ len : ℚ)) := by
  rw [Rat.mkRat_eq_div]
  have hpow : ((10 : ℚ) ^ len) ≠ 0 := by positivity
  push_cast
  field_simp

/-! ### Print / parse roundtrip lemmas -/

theorem digitChar_toNat {d : Nat} (h : d < 10) : (digitChar d).toNat = 48 + d := by
  interval_cases d <;> decide

theorem digitVal_digitChar {d : Nat} (h : d < 10) : digitVal (digitChar d) = d := by
  interval_cases d <;> decide

theorem digitChar_isDigit {d : Nat} (h : d < 10) : (digitChar d).isDigit = true := by
  interval_cases d <;> decide

theorem digitChar_not_ws {d : Nat} (h : d < 10) : (digitChar d).isWhitespace = false := by
  interval_cases d <;> decide

theorem digitChar_ne_minus {d : Nat} (h : d < 10) : digitChar d ≠ '-' := by
  interval_cases d <;> decide

theorem digitChar_ne_plus {d : Nat} (h : d < 10) : digitChar d ≠ '+' := by
  interval_cases d <;> decide

theorem takeWhile_eq_self_of_all {α : Type} {p : α → Bool} :
    ∀ {l : List α}, (∀ x ∈ l, p x = true) → l.takeWhile p = l := by
  intro l
  induction l with
  | nil => intro _; rfl
  | cons a l ih =>
      intro h
      simp [List.takeWhile_cons, h a (List.mem_cons_self a l), ih
        (fun x hx => h x (List.mem_cons_of_mem a hx))]

theorem dropWhile_eq_self_of_head {α : Type} {p : α → Bool} {a : α} {l : List α}
    (h : p a = false) : (a :: l).dropWhile p = a :: l := by
  simp [List.dropWhile_cons, h]

theorem takeWhile_append_of_all {α : Type} {p : α → Bool} {c : α}
    (hc : p c = false) :
    ∀ {l : List α} (r : List α), (∀ x ∈ l, p x = true) →
      (l ++ c :: r).takeWhile p = l := by
  intro l
  induction l with
  | nil => intro r _; simp [List.takeWhile_cons, hc]
  | cons a l ih =>
      intro r h
      simp [List.cons_append, List.takeWhile_cons, h a (List.mem_cons_self a l),
        ih r (fun x hx => h x (List.mem_cons_of_mem a hx))]

theorem dropWhile_append_of_all {α : Type} {p : α → Bool} {c : α}
    (hc : p c = false) :
    ∀ {l : List α} (r : List α), (∀ x ∈ l, p x = true) →
      (l ++ c :: r).dropWhile p = c :: r := by
  intro l
  induction l with
  | nil => intro r _; simp [List.dropWhile_cons, hc]
  | cons a l ih =>
      intro r h
      simp [List.cons_append, List.dropWhile_cons, h a (List.mem_cons_self a l),
        ih r (fun x hx => h x (List.mem_cons_of_mem a hx))]

/-- The decimal rendering of `n` is a nonempty all-digit character list. -/
theorem natToString_toList (n : Nat) :
    (natToString n).toList = (natDigitsRev n).reverse.map digitChar ∨
      (n = 0 ∧ (natToString n).toList = ['0']) := by
  by_cases h : n = 0
  · right; exact ⟨h, by simp [h, natToString]⟩
  · left; simp [natToString, h, List.asString]

theorem mem_natDigitsRev_lt {n d : Nat} (h : d ∈ natDigitsRev n) : d < 10 :=
  natDigitsRevFuel_digits_lt n n d h

theorem jsParseInt_natToString (n : Nat) : jsParseInt (natToString n) = some (n : Int) := by
  by_cases h0 : n = 0
  · subst h0; decide
  · have hds : ∀ d ∈ (natDigitsRev n).reverse, d < 10 := by
      intro d hd
      exact mem_natDigitsRev_lt (List.mem_reverse.mp hd)
    have hchars : ∀ c ∈ (natDigitsRev n).reverse.map digitChar, c.isDigit = true := by
      intro c hc
      obtain ⟨d, hd, rfl⟩ := List.mem_map.mp hc
      exact digitChar_isDigit (hds d hd)
    have hne : natDigitsRev n ≠ [] :=
      natDigitsRevFuel_ne_nil n n (Nat.pos_of_ne_zero h0) le_rfl
    have hlist : (natToString n).toList = (natDigitsRev n).reverse.map digitChar := by
      simp [natToString, h0, List.asString]
    obtain ⟨d0, rest, hcons⟩ : ∃ d0 rest, (natDigitsRev n).reverse = d0 :: rest := by
      cases hrev : (natDigitsRev n).reverse with
      | nil => exact absurd (by simpa using congrArg List.reverse hrev) hne
      | cons d0 rest => exact ⟨d0, rest, rfl⟩
    have hd0 : d0 < 10 := hds d0 (by rw [hcons]; exact List.mem_cons_self _ _)
    simp only [jsParseInt, jsParseIntList, hlist, hcons, List.map_cons]
    rw [dropWhile_eq_self_of_head (digitChar_not_ws hd0)]
    have hsplit : splitSign (digitChar d0 :: rest.map digitChar) =
        (1, digitChar d0 :: rest.map digitChar) := by
      simp [splitSign, digitChar_ne_minus hd0, digitChar_ne_plus hd0]
    rw [hsplit]
    simp only
    rw [takeWhile_eq_self_of_all (by
      intro c hc
      exact hchars c (by rw [hcons, List.map_cons]; exact hc))]
    have hmapval : (digitChar d0 :: rest.map digitChar).map digitVal = d0 :: rest := by
      rw [← List.map_cons, ← hcons, List.map_map]
      have : ∀ d ∈ (natDigitsRev n).reverse, (digitVal ∘ digitChar) d = id d := by
        intro d hd
        simp [Function.comp, digitVal_digitChar (hds d hd)]
      rw [List.map_congr_left this, List.map_id]
    rw [hmapval]
    have hval : digitsToNat (d0 :: rest) = n := by
      rw [← hcons, digitsToNat_reverse, valLE_natDigitsRev]
    simp [hval]

theorem jsParseInt_intToString (i : Int) : jsParseInt (intToString i) = some i := by
  by_cases hneg : i < 0
  · have habs : i = -(i.natAbs : Int) := by
      omega
    have h0 : i.natAbs ≠ 0 := by omega
    have hds : ∀ d ∈ (natDigitsRev i.natAbs).reverse, d < 10 := by
      intro d hd
      exact mem_natDigitsRev_lt (List.mem_reverse.mp hd)
    have hne : natDigitsRev i.natAbs ≠ [] :=
      natDigitsRevFuel_ne_nil _ _ (Nat.pos_of_ne_zero h0) le_rfl
    have hlist : (intToString i).toList = '-' :: (natDigitsRev i.natAbs).reverse.map digitChar := by
      simp [intToString, hneg, natToString, h0, List.asString]
    simp only [jsParseInt, jsParseIntList, hlist]
    rw [dropWhile_eq_self_of_head (by decide)]
    have hsplit : splitSign ('-' :: (natDigitsRev i.natAbs).reverse.map digitChar) =
        (-1, (natDigitsRev i.natAbs).reverse.map digitChar) := by
      simp [splitSign]
    rw [hsplit]
    simp only
    rw [takeWhile_eq_self_of_all (by
      intro c hc
      obtain ⟨d, hd, rfl⟩ := List.mem_map.mp hc
      exact digitChar_isDigit (hds d hd))]
    rw [List.map_map]
    have hmapval : ((natDigitsRev i.natAbs).reverse.map (digitVal ∘ digitChar)) =
        (natDigitsRev i.natAbs).reverse := by
      have : ∀ d ∈ (natDigitsRev i.natAbs).reverse, (digitVal ∘ digitChar) d = id d := by
        intro d hd
        simp [Function.comp, digitVal_digitChar (hds d hd)]
      rw [List.map_congr_left this, List.map_id]
    rw [hmapval]
    have hval : digitsToNat (natDigitsRev i.natAbs).reverse = i.natAbs := by
      rw [digitsToNat_reverse, valLE_natDigitsRev]
    have hrevne : (natDigitsRev i.natAbs).reverse ≠ [] := by
      simpa using hne
    rw [if_neg (by simpa using hrevne)]
    rw [hval]
    congr 1
    omega
  · have hpos : i = (i.natAbs : Int) := by omega
    have : intToString i = natToString i.natAbs := by
      simp [intToString, hneg]
    rw [this, jsParseInt_natToString]
    congr 1
    omega

theorem den_dvd_pow10 {q : ℚ} (h : IsDecimalRat q) : q.den ∣ 10 ^ decExp q := by
  rw [h]
  have h10 : (10 : ℕ) ^ decExp q = 2 ^ decExp q * 5 ^ decExp q := by
    rw [← Nat.mul_pow]
  rw [h10]
  exact Nat.mul_dvd_mul (Nat.pow_dvd_pow 2 (le_max_left _ _))
    (Nat.pow_dvd_pow 5 (le_max_right _ _))

theorem decNumAbs_mul_den {q : ℚ} (h : IsDecimalRat q) :
    decNumAbs q * q.den = q.num.natAbs * 10 ^ decExp q :=
  Nat.div_mul_cancel (Dvd.dvd.mul_left (den_dvd_pow10 h) _)

/-- The mantissa over `10^decExp` recovers `|q|`. -/
theorem decNumAbs_div_pow10 {q : ℚ} (h : IsDecimalRat q) :
    (decNumAbs q : ℚ) / (10 ^ decExp q : ℚ) = (q.num.natAbs : ℚ) / (q.den : ℚ) := by
  have hden : (q.den : ℚ) ≠ 0 := by
    exact_mod_cast q.den_nz
  have hpow : ((10 : ℚ) ^ decExp q) ≠ 0 := by positivity
  have hcast : (decNumAbs q : ℚ) * (q.den : ℚ) = (q.num.natAbs : ℚ) * (10 ^ decExp q : ℚ) := by
    exact_mod_cast congrArg (Nat.cast : ℕ → ℚ) (decNumAbs_mul_den h)
  field_simp
  linarith [hcast]

/-! ### `ratToString` / `jsParseFloat` roundtrip -/

theorem natToString_eq_natDigits (n : Nat) :
    natToString n = ((natDigits n).map digitChar).asString := by
  by_cases h : n = 0
  · subst h; decide
  · simp [natToString, natDigits, h]

theorem digitsToNat_natDigits (n : Nat) : digitsToNat (natDigits n) = n := by
  by_cases h : n = 0
  · subst h; rfl
  · simp only [natDigits, h, if_false]
    rw [digitsToNat_reverse, valLE_natDigitsRev]

theorem natDigits_lt (n : Nat) : ∀ d ∈ natDigits n, d < 10 := by
  intro d hd
  by_cases h : n = 0
  · subst h; simp [natDigits] at hd; omega
  · simp only [natDigits, h, if_false, List.mem_reverse] at hd
    exact mem_natDigitsRev_lt hd

theorem natDigits_ne_nil (n : Nat) : natDigits n ≠ [] := by
  by_cases h : n = 0
  · simp [natDigits, h]
  · simpa [natDigits, h] using
      natDigitsRevFuel_ne_nil n n (Nat.pos_of_ne_zero h) le_rfl

theorem map_digitVal_map_digitChar {ds : List Nat} (h : ∀ d ∈ ds, d < 10) :
    (ds.map digitChar).map digitVal = ds := by
  rw [List.map_map]
  have heq : ∀ d ∈ ds, (digitVal ∘ digitChar) d = id d := fun d hd => by
    simp [Function.comp, digitVal_digitChar (h d hd)]
  rw [List.map_congr_left heq, List.map_id]

theorem all_isDigit_map_digitChar {ds : List Nat} (h : ∀ d ∈ ds, d < 10) :
    ∀ c ∈ ds.map digitChar, c.isDigit = true := by
  intro c hc
  obtain ⟨d, hd, rfl⟩ := List.mem_map.mp hc
  exact digitChar_isDigit (h d hd)

/-- `jsParseFloatCore` on an unsigned `I.F` digit stream. -/
theorem jsParseFloatCore_digits_dot (I F : List Nat)
    (hI : ∀ d ∈ I, d < 10) (hF : ∀ d ∈ F, d < 10) (hIne : I ≠ []) :
    jsParseFloatCore (I.map digitChar ++ '.' :: F.map digitChar) =
      some ((digitsToNat I : ℚ) + (digitsToNat F : ℚ) / (10 ^ F.length : ℚ)) := by
  obtain ⟨d0, I', rfl⟩ : ∃ d0 I', I = d0 :: I' := by
    cases I with
    | nil => exact absurd rfl hIne
    | cons a b => exact ⟨a, b, rfl⟩
  have hd0 : d0 < 10 := hI d0 (List.mem_cons_self _ _)
  simp only [jsParseFloatCore, List.map_cons, List.cons_append]
  rw [dropWhile_eq_self_of_head (digitChar_not_ws hd0)]
  have hsplit : splitSign (digitChar d0 :: (I'.map digitChar ++ '.' :: F.map digitChar)) =
      (1, digitChar d0 :: (I'.map digitChar ++ '.' :: F.map digitChar)) := by
    simp [splitSign, digitChar_ne_minus hd0, digitChar_ne_plus hd0]
  rw [hsplit]
  simp only
  have hIdig : ∀ c ∈ digitChar d0 :: I'.map digitChar, c.isDigit = true := by
    intro c hc
    rcases List.mem_cons.mp hc with rfl | hc
    · exact digitChar_isDigit hd0
    · exact all_isDigit_map_digitChar (fun d hd => hI d (List.mem_cons_of_mem _ hd)) c hc
  have hdotF : (Char.isDigit '.') = false := by decide
  have htake : ((digitChar d0 :: I'.map digitChar) ++ '.' :: F.map digitChar).takeWhile
      Char.isDigit = digitChar d0 :: I'.map digitChar :=
    takeWhile_append_of_all hdotF _ hIdig
  have hdrop : ((digitChar d0 :: I'.map digitChar) ++ '.' :: F.map digitChar).dropWhile
      Char.isDigit = '.' :: F.map digitChar :=
    dropWhile_append_of_all hdotF _ hIdig
  simp only [List.cons_append] at htake hdrop
  rw [htake, hdrop]
  have hfrac : fracDigitsAfterDot ('.' :: F.map digitChar) = F.map digitChar := by
    simp only [fracDigitsAfterDot, if_pos rfl]
    exact takeWhile_eq_self_of_all (all_isDigit_map_digitChar hF)
  rw [hfrac]
  rw [show (digitChar d0 :: I'.map digitChar) = (d0 :: I').map digitChar from rfl]
  rw [map_digitVal_map_digitChar hI, map_digitVal_map_digitChar hF]
  simp only [List.length_map, Option.some.injEq]
  have hval := mkRat_decimal_val 1 (digitsToNat (d0 :: I')) (digitsToNat F) F.length
  simp only [Int.cast_one, one_mul] at hval
  simpa using hval

/-- `jsParseFloatCore` on a signed `-I.F` digit stream. -/
theorem jsParseFloatCore_neg_digits_dot (I F : List Nat)
    (hI : ∀ d ∈ I, d < 10) (hF : ∀ d ∈ F, d < 10) (hIne : I ≠ []) :
    jsParseFloatCore ('-' :: (I.map digitChar ++ '.' :: F.map digitChar)) =
      some (-((digitsToNat I : ℚ) + (digitsToNat F : ℚ) / (10 ^ F.length : ℚ))) := by
  simp only [jsParseFloatCore]
  rw [dropWhile_eq_self_of_head (by decide)]
  have hsplit : splitSign ('-' :: (I.map digitChar ++ '.' :: F.map digitChar)) =
      (-1, I.map digitChar ++ '.' :: F.map digitChar) := by
    simp [splitSign]
  rw [hsplit]
  simp only
  have hIdig : ∀ c ∈ I.map digitChar, c.isDigit = true := all_isDigit_map_digitChar hI
  have hdotF : (Char.isDigit '.') = false := by decide
  rw [takeWhile_append_of_all hdotF _ hIdig, dropWhile_append_of_all hdotF _ hIdig]
  have hfrac : fracDigitsAfterDot ('.' :: F.map digitChar) = F.map digitChar := by
    simp only [fracDigitsAfterDot, if_pos rfl]
    exact takeWhile_eq_self_of_all (all_isDigit_map_digitChar hF)
  rw [hfrac]
  rw [map_digitVal_map_digitChar hI, map_digitVal_map_digitChar hF]
  have hne : (I.map digitChar).isEmpty = false := by
    cases I with
    | nil => exact absurd rfl hIne
    | cons a b => rfl
  simp only [hne, Bool.false_and, Bool.and_false, if_neg, Bool.false_eq_true,
    not_false_eq_true, List.length_map, Option.some.injEq]
  have hval := mkRat_decimal_val (-1) (digitsToNat I) (digitsToNat F) F.length
  simp only [Int.cast_neg, Int.cast_one, neg_one_mul, neg_mul] at hval ⊢
  simpa using hval

/-- `jsParseFloatCore` on a bare unsigned digit stream. -/
theorem jsParseFloatCore_digits (I : List Nat)
    (hI : ∀ d ∈ I, d < 10) (hIne : I ≠ []) :
    jsParseFloatCore (I.map digitChar) = some (digitsToNat I : ℚ) := by
  obtain ⟨d0, I', rfl⟩ : ∃ d0 I', I = d0 :: I' := by
    cases I with
    | nil => exact absurd rfl hIne
    | cons a b => exact ⟨a, b, rfl⟩
  have hd0 : d0 < 10 := hI d0 (List.mem_cons_self _ _)
  simp only [jsParseFloatCore, List.map_cons]
  rw [dropWhile_eq_self_of_head (digitChar_not_ws hd0)]
  have hsplit : splitSign (digitChar d0 :: I'.map digitChar) =
      (1, digitChar d0 :: I'.map digitChar) := by
    simp [splitSign, digitChar_ne_minus hd0, digitChar_ne_plus hd0]
  rw [hsplit]
  simp only
  have hIdig : ∀ c ∈ digitChar d0 :: I'.map digitChar, c.isDigit = true := by
    intro c hc
    rcases List.mem_cons.mp hc with rfl | hc
    · exact digitChar_isDigit hd0
    · exact all_isDigit_map_digitChar (fun d hd => hI d (List.mem_cons_of_mem _ hd)) c hc
  rw [takeWhile_eq_self_of_all hIdig, List.dropWhile_eq_nil_iff.mpr hIdig]
  simp only [fracDigitsAfterDot]
  rw [show (digitChar d0 :: I'.map digitChar) = (d0 :: I').map digitChar from rfl]
  rw [map_digitVal_map_digitChar hI]
  simp only [List.map_nil, List.length_nil, Option.some.injEq]
  have hval := mkRat_decimal_val 1 (digitsToNat (d0 :: I')) 0 0
  simp only [Int.cast_one, one_mul, pow_zero, mul_one, Nat.cast_zero, add_zero,
    Int.cast_natCast, zero_div] at hval
  simpa [digitsToNat] using hval

/-- `jsParseFloatCore` on a bare signed digit stream. -/
theorem jsParseFloatCore_neg_digits (I : List Nat)
    (hI : ∀ d ∈ I, d < 10) (hIne : I ≠ []) :
    jsParseFloatCore ('-' :: I.map digitChar) = some (-(digitsToNat I : ℚ)) := by
  simp only [jsParseFloatCore]
  rw [dropWhile_eq_self_of_head (by decide)]
  have hsplit : splitSign ('-' :: I.map digitChar) = (-1, I.map digitChar) := by
    simp [splitSign]
  rw [hsplit]
  simp only
  have hIdig : ∀ c ∈ I.map digitChar, c.isDigit = true := all_isDigit_map_digitChar hI
  rw [takeWhile_eq_self_of_all hIdig, List.dropWhile_eq_nil_iff.mpr hIdig]
  simp only [fracDigitsAfterDot]
  rw [map_digitVal_map_digitChar hI]
  have hne : (I.map digitChar).isEmpty = false := by
    cases I with
    | nil => exact absurd rfl hIne
    | cons a b => rfl
  simp only [hne, Bool.false_and, Bool.and_false, if_neg, Bool.false_eq_true,
    not_false_eq_true, List.map_nil, List.length_nil, Option.some.injEq]
  have hval := mkRat_decimal_val (-1) (digitsToNat I) 0 0
  simp only [Int.cast_neg, Int.cast_one, pow_zero, mul_one, Nat.cast_zero, add_zero,
    zero_div, neg_one_mul] at hval
  simpa [digitsToNat] using hval

theorem toList_eq_data (s : String) : s.toList = s.data := rfl

theorem jsParseFloat_intToString (i : Int) : jsParseFloat (intToString i) = some (i : ℚ) := by
  by_cases hneg : i < 0
  · have h0 : i.natAbs ≠ 0 := by omega
    have hlist : (intToString i).toList = '-' :: (natDigits i.natAbs).map digitChar := by
      simp [intToString, hneg, natToString_eq_natDigits, toList_eq_data, String.data_append,
        List.asString]
    rw [jsParseFloat, hlist, jsParseFloatCore_neg_digits _ (natDigits_lt _) (natDigits_ne_nil _),
      digitsToNat_natDigits]
    congr 1
    rw [show ((i.natAbs : ℚ)) = ((i.natAbs : Int) : ℚ) from (Int.cast_natCast _).symm,
      show (i.natAbs : Int) = -i by omega]
    push_cast
    ring
  · have hlist : (intToString i).toList = (natDigits i.natAbs).map digitChar := by
      simp [intToString, hneg, natToString_eq_natDigits, toList_eq_data, List.asString]
    rw [jsParseFloat, hlist, jsParseFloatCore_digits _ (natDigits_lt _) (natDigits_ne_nil _),
      digitsToNat_natDigits]
    congr 1
    rw [show ((i.natAbs : ℚ)) = ((i.natAbs : Int) : ℚ) from (Int.cast_natCast _).symm,
      show (i.natAbs : Int) = i by omega]

theorem split_div_pow10 (a k : Nat) :
    ((a / 10 ^ k : Nat) : ℚ) + ((a % 10 ^ k : Nat) : ℚ) / (10 ^ k : ℚ) =
      (a : ℚ) / (10 ^ k : ℚ) := by
  have h : 10 ^ k * (a / 10 ^ k) + a % 10 ^ k = a := Nat.div_add_mod a (10 ^ k)
  have hc : ((10 ^ k * (a / 10 ^ k) + a % 10 ^ k : Nat) : ℚ) = (a : ℚ) := by
    exact_mod_cast congrArg (Nat.cast : ℕ → ℚ) h
  have hpow : ((10 : ℚ) ^ k) ≠ 0 := by positivity
  field_simp
  push_cast at hc ⊢
  linarith

/-- Printing a decimal-representable rational and reparsing it with
`parseFloat` recovers the value exactly. -/
theorem jsParseFloat_ratToString {q : ℚ} (h : IsDecimalRat q) :
    jsParseFloat (ratToString q) = some q := by
  by_cases hk : decExp q = 0
  · have hmax : max (padicVal 2 q.den) (padicVal 5 q.den) = 0 := by
      simpa [decExp] using hk
    have hden : q.den = 1 := by
      rw [h, Nat.max_eq_zero_iff.mp hmax |>.1, Nat.max_eq_zero_iff.mp hmax |>.2]
      norm_num
    have hq : ratToString q = intToString q.num := by
      simp [ratToString, hk]
    rw [hq, jsParseFloat_intToString]
    congr 1
    have hdd := Rat.num_div_den q
    rw [hden] at hdd
    simpa using hdd
  · have hklt : 0 < decExp q := Nat.pos_of_ne_zero hk
    have hFlt : ∀ d ∈ (natDigitsFixed (decExp q) (decNumAbs q % 10 ^ decExp q)).reverse,
        d < 10 := by
      intro d hd
      exact natDigitsFixed_digits_lt _ _ d (List.mem_reverse.mp hd)
    have hIlt := natDigits_lt (decNumAbs q / 10 ^ decExp q)
    have hIne := natDigits_ne_nil (decNumAbs q / 10 ^ decExp q)
    have hFval : digitsToNat (natDigitsFixed (decExp q) (decNumAbs q % 10 ^ decExp q)).reverse =
        decNumAbs q % 10 ^ decExp q := by
      rw [digitsToNat_reverse, valLE_natDigitsFixed]
      exact Nat.mod_lt _ (by positivity)
    have hFlen : (natDigitsFixed (decExp q) (decNumAbs q % 10 ^ decExp q)).reverse.length =
        decExp q := by
      rw [List.length_reverse, natDigitsFixed_length]
    have hIval := digitsToNat_natDigits (decNumAbs q / 10 ^ decExp q)
    by_cases hneg : q.num < 0
    · have hlist : (ratToString q).toList =
          '-' :: ((natDigits (decNumAbs q / 10 ^ decExp q)).map digitChar ++
            '.' :: (natDigitsFixed (decExp q) (decNumAbs q % 10 ^ decExp q)).reverse.map
              digitChar) := by
        simp [ratToString, hk, hneg, toList_eq_data, List.asString]
      rw [jsParseFloat, hlist, jsParseFloatCore_neg_digits_dot _ _ hIlt hFlt hIne,
        hIval, hFval, hFlen]
      congr 1
      rw [split_div_pow10, decNumAbs_div_pow10 h]
      conv_rhs => rw [← Rat.num_div_den q]
      have hnum : (q.num : ℚ) = -(q.num.natAbs : ℚ) := by
        rw [show ((q.num.natAbs : ℚ)) = ((q.num.natAbs : Int) : ℚ) from
          (Int.cast_natCast _).symm, show (q.num.natAbs : Int) = -q.num by omega]
        push_cast
        ring
      rw [hnum, neg_div]
    · have hlist : (ratToString q).toList =
          (natDigits (decNumAbs q / 10 ^ decExp q)).map digitChar ++
            '.' :: (natDigitsFixed (decExp q) (decNumAbs q % 10 ^ decExp q)).reverse.map
              digitChar := by
        simp [ratToString, hk, hneg, toList_eq_data, List.asString]
      rw [jsParseFloat, hlist, jsParseFloatCore_digits_dot _ _ hIlt hFlt hIne,
        hIval, hFval, hFlen]
      congr 1
      rw [split_div_pow10, decNumAbs_div_pow10 h]
      conv_rhs => rw [← Rat.num_div_den q]
      congr 1
      rw [show ((q.num.natAbs : ℚ)) = ((q.num.natAbs : Int) : ℚ) from
        (Int.cast_natCast _).symm, show (q.num.natAbs : Int) = q.num by omega]

/-! ## Queue-drain lemmas -/

/-- The drain loop applies exactly the longest all-successful prefix, and
reports success iff every entry's apply succeeded. -/
theorem drainLoop_eq (apply : PendingChange → Bool) :
    ∀ q, drainLoop apply q = (q.takeWhile apply, q.all apply) := by
  intro q
  induction q with
  | nil => rfl
  | cons c rest ih =>
      by_cases h : apply c
      · simp [drainLoop, h, List.takeWhile_cons, ih]
      · simp [drainLoop, h, List.takeWhile_cons]

/-! ## Claim C1 -/

/-- C1 counterexample. The claim: after a drain of a two-change queue where
`apply` succeeds on the first change and fails on the second, the queue
contains exactly the second change. In the code (`syncPendingChanges`,
part_000), the failed loop leaves the queue untouched: both changes remain,
including the already-applied first one. -/
theorem C1_counterexample :
    applyAB changeA = true ∧ applyAB changeB = false ∧
    (syncPendingChanges true applyAB [changeA, changeB]).1 = [changeA, changeB] ∧
    (syncPendingChanges true applyAB [changeA, changeB]).1 ≠ [changeB] := by
  decide

/-- C1 (amended): the drain applies queued changes strictly in FIFO order and
stops at the first failure (the applied changes are exactly the longest
all-successful prefix); the queue is cleared only when every apply
succeeded, and on any failure the entire queue — including already-applied
entries — is retained unmodified for the next attempt. In the two-change
scenario with a failing second apply, the queue afterwards contains both
changes and only the first was applied. -/
theorem C1_amended :
    (∀ (apply : PendingChange → Bool) (queue : List PendingChange),
      syncPendingChanges true apply queue =
        if queue.isEmpty then (queue, [])
        else if queue.all apply then ([], queue.takeWhile apply)
        else (queue, queue.takeWhile apply)) ∧
    (syncPendingChanges true applyAB [changeA, changeB]).1 = [changeA, changeB] ∧
    (syncPendingChanges true applyAB [changeA, changeB]).2 = [changeA] := by
  refine ⟨fun apply queue => ?_, by decide, by decide⟩
  by_cases hq : queue.isEmpty
  · simp [syncPendingChanges, hq]
  · by_cases hall : queue.all apply
    · simp [syncPendingChanges, hq, hall, drainLoop_eq]
    · simp [syncPendingChanges, hq, hall, drainLoop_eq]

/-! ## Claim C2 -/

/-- C2 counterexample. The claim: an offline save updates the local cache
entry for the date so a subsequent local read returns the record. The cited
js `updateWorkoutData` offline branch only runs `syncQueue.add` and returns
`{offline: true}`; `setCachedData` is never called on the write path, so no
cache entry is written and a subsequent offline read through the service
(starting from an empty cache) fails instead of returning the record. -/
theorem C2_counterexample :
    (updateWorkoutDataJS false "2024-03-14" "3/14" sampleWorkoutB .badStatus
      .badStatus).queueAdds = [⟨"2024-03-14", sampleWorkoutB⟩] ∧
    (updateWorkoutDataJS false "2024-03-14" "3/14" sampleWorkoutB .badStatus
      .badStatus).cacheWrite = none ∧
    (getWorkoutDataJS false (fun _ => none) "2024-03-14" "3/14" .badStatus
      .badStatus).result = .error "Offline and no cached data available" := by
  decide

/-- C2 (amended): in the OFFLINE state, the component's `handleSave` makes no
network call, appends exactly one pending change carrying the date and the
saved record, updates the `workout_<date>` cache entry to the record
(leaving other entries untouched), and shows the record — local
read-your-writes. The cited js service `updateWorkoutData`, offline, also
makes no network attempt and enqueues exactly one `{date, workoutData}`
change, but performs no cache write, so the read-your-writes part holds only
through the component path. -/
theorem C2_amended :
    (∀ (s : TrackerState) (date : String) (w : WorkoutData) (ts : String)
        (reloaded : Option WorkoutData),
      (handleSave false s date w ts reloaded).networkCalls = 0 ∧
      (handleSave false s date w ts reloaded).state.pendingChanges =
        s.pendingChanges ++ [⟨date, w, ts⟩] ∧
      (handleSave false s date w ts reloaded).state.pendingChanges.length =
        s.pendingChanges.length + 1 ∧
      (handleSave false s date w ts reloaded).state.cache date = some w ∧
      (handleSave false s date w ts reloaded).state.workout = some w ∧
      (∀ d, d ≠ date →
        (handleSave false s date w ts reloaded).state.cache d = s.cache d)) ∧
    (∀ (date formattedDate : String) (w : WorkoutData) (wo co : FetchOutcome),
      (updateWorkoutDataJS false date formattedDate w wo co).queueAdds = [⟨date, w⟩] ∧
      (updateWorkoutDataJS false date formattedDate w wo co).result = .offline ∧
      (updateWorkoutDataJS false date formattedDate w wo co).workoutRowsSent = [] ∧
      (updateWorkoutDataJS false date formattedDate w wo co).cardioRowSent = none ∧
      (updateWorkoutDataJS false date formattedDate w wo co).cacheWrite = none) := by
  constructor
  · intro s date w ts reloaded
    refine ⟨rfl, rfl, by simp [handleSave], by simp [handleSave, setCache], rfl, ?_⟩
    intro d hd
    simp [handleSave, setCache, hd]
  · intro date formattedDate w wo co
    refine ⟨?_, ?_, ?_, ?_, ?_⟩ <;> simp [updateWorkoutDataJS]

/-- C2 witness: the offline save of `sampleWorkoutB` on an empty state, and
the cache-free offline enqueue of the js service. -/
theorem C2_amended_witness :
    (handleSave false emptyTrackerState "2024-03-14" sampleWorkoutB "t0" none).networkCalls
      = 0 ∧
    (handleSave false emptyTrackerState "2024-03-14" sampleWorkoutB "t0"
      none).state.cache "2024-03-14" = some sampleWorkoutB ∧
    (handleSave false emptyTrackerState "2024-03-14" sampleWorkoutB "t0"
      none).state.cache "2024-03-15" = none ∧
    (updateWorkoutDataJS false "2024-03-15" "3/15" sampleWorkoutA .badStatus
      .badStatus).cacheWrite = none := by
  have h := C2_amended.1 emptyTrackerState "2024-03-14" sampleWorkoutB "t0" none
  refine ⟨h.1, h.2.2.2.1, ?_,
    (C2_amended.2 "2024-03-15" "3/15" sampleWorkoutA .badStatus .badStatus).2.2.2.2⟩
  rw [h.2.2.2.2.2 "2024-03-15" (by decide)]
  rfl

/-! ## Claim C3 -/

/-- C3 counterexample. The claim: an offline read with no cache entry fails
with a hard OfflineUnavailable error, never a silent empty or absent
result. In the cited component `loadWorkoutData`, offline with a cache miss
executes neither branch: no service call is made, nothing throws, the error
banner stays `null`, and the previously shown workout silently remains. -/
theorem C3_counterexample :
    (loadWorkoutData false (fun _ => none) (some sampleWorkoutB) "online" "2024-03-14"
      none).error = none ∧
    (loadWorkoutData false (fun _ => none) (some sampleWorkoutB) "online" "2024-03-14"
      none).workout = some sampleWorkoutB ∧
    (loadWorkoutData false (fun _ => none) (some sampleWorkoutB) "online" "2024-03-14"
      none).networkCalls = 0 := by
  decide

/-- C3 (amended): the js service read satisfies the claim in full — offline
it makes no network request, a cache hit returns the snapshot and a cache
miss throws the hard offline error. The cited component `loadWorkoutData`,
offline, also returns the cached snapshot without a network call on a cache
hit, but on a cache miss it neither reads nor errors: no service call, no
thrown error, no error banner — the previous workout, tag, and cache are
silently left in place. -/
theorem C3_amended :
    (∀ (cache : String → Option WorkoutBundle) (date targetDate : String)
        (wf cf : FetchOutcome),
      (getWorkoutDataJS false cache date targetDate wf cf).networkCalls = 0 ∧
      (∀ b, cache date = some b →
        (getWorkoutDataJS false cache date targetDate wf cf).result = .ok b) ∧
      (cache date = none →
        (getWorkoutDataJS false cache date targetDate wf cf).result =
          .error "Offline and no cached data available")) ∧
    (∀ (cache : String → Option WorkoutData) (prevW : Option WorkoutData)
        (prevDS date : String) (fetched : Option WorkoutData) (b : WorkoutData),
      cache date = some b →
      (loadWorkoutData false cache prevW prevDS date fetched).workout = some b ∧
      (loadWorkoutData false cache prevW prevDS date fetched).dataSource = "cache" ∧
      (loadWorkoutData false cache prevW prevDS date fetched).networkCalls = 0 ∧
      (loadWorkoutData false cache prevW prevDS date fetched).error = none) ∧
    (∀ (cache : String → Option WorkoutData) (prevW : Option WorkoutData)
        (prevDS date : String) (fetched : Option WorkoutData),
      cache date = none →
      (loadWorkoutData false cache prevW prevDS date fetched).error = none ∧
      (loadWorkoutData false cache prevW prevDS date fetched).workout = prevW ∧
      (loadWorkoutData false cache prevW prevDS date fetched).dataSource = prevDS ∧
      (loadWorkoutData false cache prevW prevDS date fetched).networkCalls = 0 ∧
      (loadWorkoutData false cache prevW prevDS date fetched).cacheWrite = none) := by
  refine ⟨?_, ?_, ?_⟩
  · intro cache date targetDate wf cf
    refine ⟨?_, ?_, ?_⟩
    · cases h : cache date <;> simp [getWorkoutDataJS, h]
    · intro b hb
      simp [getWorkoutDataJS, hb]
    · intro hb
      simp [getWorkoutDataJS, hb]
  · intro cache prevW prevDS date fetched b hb
    refine ⟨?_, ?_, ?_, ?_⟩ <;> simp [loadWorkoutData, hb]
  · intro cache prevW prevDS date fetched hb
    refine ⟨?_, ?_, ?_, ?_, ?_⟩ <;> simp [loadWorkoutData, hb]

/-- C3 witness: the service cache hit and miss, and the component's silent
offline miss, at concrete inputs. -/
theorem C3_amended_witness :
    (getWorkoutDataJS false cacheWith314 "2024-03-14" "3/14" .badStatus
      .badStatus).result = .ok sampleBundle ∧
    (getWorkoutDataJS false cacheWith314 "2024-03-15" "3/15" .badStatus
      .badStatus).result = .error "Offline and no cached data available" ∧
    (loadWorkoutData false (fun _ => none) none "online" "2024-03-14" none).error
      = none :=
  ⟨(C3_amended.1 cacheWith314 "2024-03-14" "3/14" .badStatus .badStatus).2.1 sampleBundle
      (by decide),
    (C3_amended.1 cacheWith314 "2024-03-15" "3/15" .badStatus .badStatus).2.2 (by decide),
    ((C3_amended.2.2 (fun _ => none) none "online" "2024-03-14" none) (by decide)).1⟩

/-! ## Column-letter lemmas -/

theorem lettersVal_append_singleton (l : List Char) (c : Char) :
    lettersVal (l ++ [c]) = lettersVal l * 26 + (c.toNat - 64) := by
  simp [lettersVal, List.foldl_append]

theorem char_toNat_65 {r : Nat} (h : r < 26) : (Char.ofNat (65 + r)).toNat = 65 + r := by
  interval_cases r <;> decide

theorem lettersVal_getColumnLetterFuel (fuel : Nat) :
    ∀ col, col ≤ fuel → lettersVal (getColumnLetterFuel fuel col).toList = col + 1 := by
  induction fuel with
  | zero =>
      intro col hcol
      interval_cases col
      decide
  | succ f ih =>
      intro col hcol
      by_cases h26 : col < 26
      · have hmod : col % 26 = col := Nat.mod_eq_of_lt h26
        simp only [getColumnLetterFuel, h26, if_pos]
        show lettersVal [Char.ofNat (65 + col % 26)] = col + 1
        simp only [lettersVal, List.foldl_cons, List.foldl_nil, Nat.zero_mul, Nat.zero_add]
        rw [hmod, char_toNat_65 h26]
        omega
      · have hdiv1 : 1 ≤ col / 26 := (Nat.one_le_div_iff (by omega)).mpr (by omega)
        have hlt : col / 26 < col := Nat.div_lt_self (by omega) (by omega)
        have hrec : col / 26 - 1 ≤ f := by omega
        have hmodlt : col % 26 < 26 := Nat.mod_lt _ (by omega)
        simp only [getColumnLetterFuel, h26, if_neg, Bool.false_eq_true, not_false_eq_true]
        have htl : (getColumnLetterFuel f (col / 26 - 1) ++
            String.singleton (Char.ofNat (65 + col % 26))).toList =
            (getColumnLetterFuel f (col / 26 - 1)).toList ++ [Char.ofNat (65 + col % 26)] :=
          String.data_append _ _
        rw [htl, lettersVal_append_singleton, ih _ hrec, char_toNat_65 hmodlt]
        have hdm : 26 * (col / 26) + col % 26 = col := Nat.div_add_mod col 26
        omega

/-- `getColumnLetter` denotes its input: reading the produced letters back as
a bijective base-26 numeral recovers the zero-based column index. -/
theorem lettersToIndex_getColumnLetter (col : Nat) :
    lettersToIndex (getColumnLetter col) = col := by
  have h := lettersVal_getColumnLetterFuel col col le_rfl
  simp only [lettersToIndex, getColumnLetter, h]
  omega

/-! ## Claim C9 -/

/-- C9: the ts `getColumnLetter` performs the base-26 translation on every
index (reading its output back as a bijective base-26 numeral recovers the
index, and the five quoted values hold), but the part_002 update path's
derivation (`String.fromCharCode(65 + col)`) emits the single character at
code 65+col, which at the cardio-notes column 63 — a column part_002's own
update path writes — is U+0080, not "BL". -/
theorem C9_column_letters :
    (∀ col, lettersToIndex (getColumnLetter col) = col) ∧
    getColumnLetter 0 = "A" ∧ getColumnLetter 25 = "Z" ∧ getColumnLetter 26 = "AA" ∧
    getColumnLetter 63 = "BL" ∧ getColumnLetter 64 = "BM" ∧
    columnLetter_p2 0 = "A" ∧ columnLetter_p2 25 = "Z" ∧
    columnLetter_p2 63 = String.singleton (Char.ofNat 128) ∧
    columnLetter_p2 63 ≠ "BL" ∧ columnLetter_p2 64 ≠ "BM" ∧
    (updateCell_p2 1 63 "easy").range ≠ "BL1" := by
  refine ⟨lettersToIndex_getColumnLetter, ?_⟩
  decide

/-! ## Claim C10 -/

/-- C10: when no cardio-log row matches the query key, the ts read still
returns a record whose cardio component has every string field empty and
every numeric field zero, instead of failing or omitting it. -/
theorem C10_cardio_default (date parsedDate : String)
    (workoutRows cardioRows : List (List String))
    (h : ∀ row ∈ cardioRows,
      (jsTruthy (cell row 5) && (normalizeDate (cell row 5) == parsedDate)) = false) :
    (getWorkoutDataTS date parsedDate workoutRows cardioRows).cardio = defaultCardio ∧
    (getWorkoutDataTS date parsedDate workoutRows cardioRows).cardio.modality = "" ∧
    (getWorkoutDataTS date parsedDate workoutRows cardioRows).cardio.workRest = "" ∧
    (getWorkoutDataTS date parsedDate workoutRows cardioRows).cardio.notes = "" ∧
    (getWorkoutDataTS date parsedDate workoutRows cardioRows).cardio.minutes = 0 ∧
    (getWorkoutDataTS date parsedDate workoutRows cardioRows).cardio.seconds = 0 ∧
    (getWorkoutDataTS date parsedDate workoutRows cardioRows).cardio.rpe = 0 ∧
    (getWorkoutDataTS date parsedDate workoutRows cardioRows).cardio.watts = 0 := by
  have hfind : cardioRows.find? (fun row =>
      jsTruthy (cell row 5) && (normalizeDate (cell row 5) == parsedDate)) = none := by
    rw [List.find?_eq_none]
    intro row hrow
    simp [h row hrow]
  have hc : (getWorkoutDataTS date parsedDate workoutRows cardioRows).cardio =
      defaultCardio := by
    simp [getWorkoutDataTS, cardioFromRowsTS, hfind]
  refine ⟨hc, ?_, ?_, ?_, ?_, ?_, ?_, ?_⟩ <;> rw [hc] <;> rfl

/-- C10 witness: a cardio grid whose only data row is for another date. -/
theorem C10_cardio_default_witness :
    (getWorkoutDataTS "2024-03-14" "3/14" []
      [["hdr"], ["", "", "", "", "", "3/15", "", "", "Bike"]]).cardio = defaultCardio :=
  (C10_cardio_default "2024-03-14" "3/14" []
    [["hdr"], ["", "", "", "", "", "3/15", "", "", "Bike"]] (by decide)).1

/-! ## Leading-zero lemmas -/

theorem digitChar_eq_zero_iff {d : Nat} (h : d < 10) : digitChar d = '0' ↔ d = 0 := by
  interval_cases d <;> decide

/-- The template rendering of a `parseInt` result is either exactly `"0"` or
does not start with the character `'0'`: leading zeros never survive. -/
theorem intOrNaN_no_leading_zero (o : Option Int) :
    intOrNaN o = "0" ∨ (intOrNaN o).toList.head? ≠ some '0' := by
  match o with
  | none => exact Or.inr (by decide)
  | some i =>
      by_cases h0 : i = 0
      · subst h0
        exact Or.inl (by decide)
      · right
        by_cases hneg : i < 0
        · have hlist : (intOrNaN (some i)).toList =
              '-' :: (natToString i.natAbs).toList := by
            simp [intOrNaN, intToString, hneg, toList_eq_data, String.data_append]
          rw [hlist]
          simp
        · have habs : i.natAbs ≠ 0 := by omega
          have hne : natDigitsRev i.natAbs ≠ [] :=
            natDigitsRevFuel_ne_nil _ _ (by omega) le_rfl
          have hd := natDigitsRevFuel_getLast_ne_zero i.natAbs i.natAbs (by omega) le_rfl hne
          have hdlt : (natDigitsRev i.natAbs).getLast hne < 10 :=
            natDigitsRevFuel_digits_lt _ _ _ (List.getLast_mem hne)
          have hglast : (natDigitsRev i.natAbs).getLast? =
              some ((natDigitsRev i.natAbs).getLast hne) := by
            rw [List.getLast?_eq_getLast _ hne]
          have hhead : (natDigitsRev i.natAbs).reverse.head? =
              some ((natDigitsRev i.natAbs).getLast hne) := by
            rw [List.head?_reverse, hglast]
          have hlist : (intOrNaN (some i)).toList =
              (natDigitsRev i.natAbs).reverse.map digitChar := by
            simp [intOrNaN, intToString, hneg, natToString, habs, List.asString]
          rw [hlist, List.head?_map, hhead]
          intro hcontra
          have hchar : digitChar ((natDigitsRev i.natAbs).getLast hne) = '0' := by
            simpa using hcontra
          exact hd ((digitChar_eq_zero_iff hdlt).mp hchar)

/-! ## Claim C4 -/

/-- C4 counterexample. The claim: for every zero-padded input such as
"02/05" the normalized result has no leading zeros. The part_002
`normalizeDate` (a cited source of the claim) returns a two-component token
verbatim, so `normalizeDate_v2 "02/05" = "02/05"`, which starts with '0';
the ts normalizer strips the zeros. -/
theorem C4_counterexample :
    normalizeDate "02/05" = "2/5" ∧
    normalizeDate_v2 "02/05" = "02/05" ∧
    normalizeDate_v2 "02/05" ≠ "2/5" ∧
    (normalizeDate_v2 "02/05").toList.head? = some '0' := by
  decide

/-- C4 (amended): both normalizers trim, keep the last space-separated
token, and agree on the quoted examples
(`normalize("Thu 12/12/2024") = normalize("12/12") = "12/12"`); the ts
normalizer rebuilds a slash-containing token from `parseInt` of its first
two components, so each component of its result is `"NaN"`, `"0"`, or free
of leading zeros (`normalizeDate "02/05" = "2/5"`), while the part_002
variant returns a two-component token verbatim, preserving leading zeros
(`normalizeDate_v2 "02/05" = "02/05"`); only a three-component token has its
year dropped there. -/
theorem C4_amended :
    normalizeDate "Thu 12/12/2024" = "12/12" ∧ normalizeDate "12/12" = "12/12" ∧
    normalizeDate "02/05" = "2/5" ∧
    normalizeDate_v2 "Thu 12/12/2024" = "12/12" ∧ normalizeDate_v2 "12/12" = "12/12" ∧
    normalizeDate_v2 "02/05" = "02/05" ∧
    (∀ o : Option Int, intOrNaN o = "0" ∨ (intOrNaN o).toList.head? ≠ some '0') ∧
    (∀ s : String, s ≠ "" → (tokenOf s).contains '/' = true →
      normalizeDate s =
        intOrNaN (jsParseIntList ((splitOnChar '/' (tokenOf s)).getD 0 [])) ++ "/" ++
          intOrNaN (jsParseIntList ((splitOnChar '/' (tokenOf s)).getD 1 []))) := by
  refine ⟨by decide, by decide, by decide, by decide, by decide, by decide,
    intOrNaN_no_leading_zero, ?_⟩
  intro s hs hc
  simp only [tokenOf] at hc
  unfold normalizeDate
  rw [if_neg hs]
  simp only [tokenOf]
  rw [if_pos hc]

/-- C4 witness: the general component decomposition applied at "02/05". -/
theorem C4_amended_witness :
    normalizeDate "02/05" =
      intOrNaN (jsParseIntList ((splitOnChar '/' (tokenOf "02/05")).getD 0 [])) ++ "/" ++
        intOrNaN (jsParseIntList ((splitOnChar '/' (tokenOf "02/05")).getD 1 [])) :=
  C4_amended.2.2.2.2.2.2.2 "02/05" (by decide) (by decide)

/-! ## Decode-shape lemmas -/

theorem filterMap_ite {α β : Type} (p : α → Bool) (f : α → β) :
    ∀ l : List α, (l.filterMap (fun a => if p a then some (f a) else none)) =
      (l.filter p).map f := by
  intro l
  induction l with
  | nil => rfl
  | cons a t ih =>
      by_cases h : p a
      · simp [List.filterMap_cons, List.filter_cons, h, ih]
      · simp [List.filterMap_cons, List.filter_cons, h, ih]

theorem rowSetsTS_eq (row : List String) :
    rowSetsTS row = (setGroups.filter (includeSet row)).map (setOfGroup row) :=
  filterMap_ite (includeSet row) (setOfGroup row) setGroups

theorem rowSetsTS_length_le (row : List String) : (rowSetsTS row).length ≤ 3 := by
  rw [rowSetsTS_eq, List.length_map]
  have h := List.length_filter_le (includeSet row) setGroups
  simpa [setGroups] using h

/-! ## Claim C5 -/

/-- C5 counterexample. The claim: a triplet whose reps cell is blank
contributes no set even when its weight cell holds a value. In
`processWorkoutRows` (googleSheets.js, a cited source), a triplet is
included whenever any of its three cells is truthy, so the blank-reps row
decodes to an exercise with one set `{reps := 0, weight := 100, rir := 0}`. -/
theorem C5_counterexample :
    jsTruthy (cell blankRepsRow 14) = false ∧
    jsTruthy (cell blankRepsRow 15) = true ∧
    processWorkoutRowsJS [["hdr"], blankRepsRow] "3/14" =
      [{ name := "Bench", sets := [{ reps := 0, weight := 100, rir := 0 }],
         notes := "" }] := by
  decide

/-- C5 (amended): the ts decoder includes a set from a triplet iff that
triplet's reps cell is truthy and numeric (`Number` not NaN), parsing
reps/rir as integers and weight as a decimal with 0 for non-numeric cells,
and only the 3 fixed triplets are considered, so every decoded exercise has
at most 3 sets; in particular the blank-reps row decodes to no set there.
The js `processWorkoutRows` variant instead reads the declared set count
from column 13 and includes a triplet whenever any of its cells is
non-empty, so the same row yields a set. -/
theorem C5_amended :
    (∀ row : List String,
      rowSetsTS row = (setGroups.filter (includeSet row)).map (setOfGroup row) ∧
      (rowSetsTS row).length ≤ 3) ∧
    (∀ (workoutRows : List (List String)) (parsedDate : String) (e : Exercise),
      e ∈ processExercisesTS workoutRows parsedDate → e.sets.length ≤ 3) ∧
    rowSetsTS blankRepsRow = [] ∧
    processWorkoutRowsJS [["hdr"], blankRepsRow] "3/14" ≠ [] := by
  refine ⟨fun row => ⟨rowSetsTS_eq row, rowSetsTS_length_le row⟩, ?_, by decide, by decide⟩
  intro workoutRows parsedDate e he
  simp only [processExercisesTS, List.mem_filterMap, List.mem_filter] at he
  obtain ⟨row, _, hrow⟩ := he
  by_cases h8 : jsTruthy (cell row 8)
  · rw [if_pos h8] at hrow
    have hsets : e.sets = rowSetsTS row := by
      cases hrow
      rfl
    rw [hsets]
    exact rowSetsTS_length_le row
  · rw [if_neg h8] at hrow
    cases hrow

/-- C5 witness: the at-most-3-sets bound applied to the concrete decode of
the blank-reps row (which the ts decoder reads as an exercise with no
sets). -/
theorem C5_amended_witness :
    ({ name := "Bench", sets := [], notes := "" } : Exercise).sets.length ≤ 3 :=
  C5_amended.2.1 [blankRepsRow] "3/14" _ (by decide)

/-! ## Row-discovery lemmas -/

/-- Every entry of `dateRowsTS` points back to a fetched row whose normalized
date is the query key and whose trimmed lowercased name is the entry's
key. -/
theorem dateRowsTS_mem {rows : List (List String)} {parsedDate k : String} {idx : Nat}
    (h : (k, idx) ∈ dateRowsTS rows parsedDate) :
    ∃ row, rows.get? (idx - 1) = some row ∧ normalizeDate (cell row 6) = parsedDate ∧
      toLowerStr (trimStr (cell row 8)) = k := by
  simp only [dateRowsTS, List.mem_filterMap] at h
  obtain ⟨⟨i, row⟩, hmem, hif⟩ := h
  by_cases hcond : normalizeDate (cell row 6) = parsedDate
  · rw [if_pos hcond] at hif
    have hk : toLowerStr (trimStr (cell row 8)) = k ∧ i + 1 = idx := by
      have := Option.some.inj hif
      exact ⟨congrArg Prod.fst this, congrArg Prod.snd this⟩
    have hget : rows.get? i = some row := by
      have := List.mk_mem_enum_iff_getElem?.mp hmem
      simpa [List.get?_eq_getElem?] using this
    refine ⟨row, ?_, hcond, hk.1⟩
    have : idx - 1 = i := by omega
    rw [this]
    exact hget
  · rw [if_neg hcond] at hif
    cases hif

/-! ## Claim C6 -/

/-- C6 counterexample. The claim: on the update path the row is located by
normalized date and lowercased name. The part_002 `updateWorkoutData` (a
cited source) matches by raw strict equality of the date cell and the
exercise name, so a row stored as "Thu 3/14" with name "Bench" is never
located for query key "3/14" and target name "bench" — its update is
skipped — although the row's normalized date equals the key and the
lowercased names agree (and the ts implementation does locate it). -/
theorem C6_counterexample :
    normalizeDate (cell weekdayRow 6) = "3/14" ∧
    toLowerStr (trimStr (cell weekdayRow 8)) = toLowerStr benchExercise.name ∧
    workoutUpdates_p2 [weekdayRow] "3/14" [benchExercise] = [] ∧
    workoutUpdatesTS [weekdayRow] "3/14" [benchExercise] ≠ [] := by
  decide

/-- C6 (amended): in the ts implementation, an exercise whose (normalized
date, trimmed lowercased name) key matches no fetched row is silently
dropped from the produced batch (removing it from the input changes
nothing), and a located index always comes from a fetched row whose
normalized date equals the query key and whose trimmed lowercased name
equals the lowercased target name; the update path emits only range writes
against such rows — it has no append operation, so it never creates rows.
The part_002 variant locates rows by raw equality of the date cell and
exercise name instead. -/
theorem C6_amended :
    (∀ (rows : List (List String)) (parsedDate : String) (e : Exercise)
        (es1 es2 : List Exercise),
      lookupLast (dateRowsTS rows parsedDate) (toLowerStr e.name) = none →
      workoutUpdatesTS rows parsedDate (es1 ++ e :: es2) =
        workoutUpdatesTS rows parsedDate (es1 ++ es2)) ∧
    (∀ (rows : List (List String)) (parsedDate : String) (e : Exercise) (idx : Nat),
      lookupLast (dateRowsTS rows parsedDate) (toLowerStr e.name) = some idx →
      ∃ row, rows.get? (idx - 1) = some row ∧
        normalizeDate (cell row 6) = parsedDate ∧
        toLowerStr (trimStr (cell row 8)) = toLowerStr e.name) ∧
    (∀ (parsedDate : String) (workoutRows cardioRows : List (List String))
        (w : WorkoutData),
      (updateWorkoutDataTS parsedDate workoutRows cardioRows w).workoutBatch =
        workoutUpdatesTS workoutRows parsedDate w.exercises) := by
  refine ⟨?_, ?_, fun _ _ _ _ => rfl⟩
  · intro rows parsedDate e es1 es2 hnone
    simp only [workoutUpdatesTS, List.append_bind, List.cons_bind, hnone]
    simp
  · intro rows parsedDate e idx hsome
    have hfind := hsome
    simp only [lookupLast, Option.map_eq_some'] at hfind
    obtain ⟨⟨k, i⟩, hfound, hsnd⟩ := hfind
    have hmem : (k, i) ∈ (dateRowsTS rows parsedDate).reverse :=
      List.mem_of_find?_eq_some hfound
    have hpred := List.find?_some hfound
    have hkeq : k = toLowerStr e.name := by
      simpa using hpred
    have hmem2 : (k, i) ∈ dateRowsTS rows parsedDate := List.mem_reverse.mp hmem
    obtain ⟨row, hget, hdate, hname⟩ := dateRowsTS_mem hmem2
    have h2 : i = idx := hsnd
    subst h2
    exact ⟨row, hget, hdate, by rw [hname, hkeq]⟩

/-- C6 witness: the weekday-prefixed row is located by the ts key (index 1),
and dropping an unlocated exercise leaves the batch unchanged. -/
theorem C6_amended_witness :
    (∃ row, [weekdayRow].get? 0 = some row ∧
      normalizeDate (cell row 6) = "3/14" ∧
      toLowerStr (trimStr (cell row 8)) = toLowerStr benchExercise.name) ∧
    workoutUpdatesTS [weekdayRow] "3/14"
        ([] ++ { benchExercise with name := "squat" } :: []) =
      workoutUpdatesTS [weekdayRow] "3/14" ([] ++ []) := by
  constructor
  · have h := C6_amended.2.1 [weekdayRow] "3/14" benchExercise 1 (by decide)
    simpa using h
  · exact C6_amended.1 [weekdayRow] "3/14" { benchExercise with name := "squat" } [] []
      (by decide)

/-! ## Claim C7 -/

/-- C7 counterexample. The claim: no part of a write is silently discarded —
each portion reaches the remote store or the change is enqueued. In js
`updateWorkoutData` (the cited source), when the session-log append succeeds
and the cardio append returns a non-ok response, the failure is only logged:
the call reports success and enqueues nothing, discarding the cardio
portion. -/
theorem C7_counterexample :
    cardioHasValue sampleWorkoutC.cardio = true ∧
    sampleWorkoutC.exercises ≠ [] ∧
    (updateWorkoutDataJS true "2024-03-14" "3/14" sampleWorkoutC
      (.ok []) .badStatus).result = .success ∧
    (updateWorkoutDataJS true "2024-03-14" "3/14" sampleWorkoutC
      (.ok []) .badStatus).queueAdds = [] := by
  decide

/-- C7 (amended): an offline write is always enqueued; an online write whose
session-log append fails (non-ok or thrown) is enqueued and the error
rethrown; a thrown cardio append is also enqueued; but a cardio append that
returns a non-ok response is only logged — the call reports success and
enqueues nothing, so that cardio portion is dropped. -/
theorem C7_amended (date formattedDate : String) (w : WorkoutData)
    (wo co : FetchOutcome) :
    ((updateWorkoutDataJS false date formattedDate w wo co).queueAdds = [⟨date, w⟩]) ∧
    (w.exercises ≠ [] → wo.isOk = false →
      (updateWorkoutDataJS true date formattedDate w wo co).queueAdds = [⟨date, w⟩] ∧
      (updateWorkoutDataJS true date formattedDate w wo co).result = .thrown) ∧
    ((w.exercises = [] ∨ wo.isOk = true) → cardioHasValue w.cardio = true →
      co = .netThrow →
      (updateWorkoutDataJS true date formattedDate w wo co).queueAdds = [⟨date, w⟩] ∧
      (updateWorkoutDataJS true date formattedDate w wo co).result = .thrown) ∧
    ((w.exercises = [] ∨ wo.isOk = true) → cardioHasValue w.cardio = true →
      co = .badStatus →
      (updateWorkoutDataJS true date formattedDate w wo co).queueAdds = [] ∧
      (updateWorkoutDataJS true date formattedDate w wo co).result = .success) := by
  refine ⟨by simp [updateWorkoutDataJS], ?_, ?_, ?_⟩
  · intro hex hok
    have hne : w.exercises.isEmpty = false := by
      simpa [List.isEmpty_iff] using hex
    cases wo with
    | ok vals => simp [FetchOutcome.isOk] at hok
    | badStatus => constructor <;> simp [updateWorkoutDataJS, hne]
    | netThrow => constructor <;> simp [updateWorkoutDataJS, hne]
  · intro h hcv hco
    subst hco
    rcases h with hnil | hok
    · have hempty : w.exercises.isEmpty = true := by simp [hnil]
      constructor <;> simp [updateWorkoutDataJS, hempty, hcv]
    · cases wo with
      | ok vals => constructor <;> simp [updateWorkoutDataJS, hcv]
      | badStatus => simp [FetchOutcome.isOk] at hok
      | netThrow => simp [FetchOutcome.isOk] at hok
  · intro h hcv hco
    subst hco
    rcases h with hnil | hok
    · have hempty : w.exercises.isEmpty = true := by simp [hnil]
      constructor <;> simp [updateWorkoutDataJS, hempty, hcv]
    · cases wo with
      | ok vals => constructor <;> simp [updateWorkoutDataJS, hcv]
      | badStatus => simp [FetchOutcome.isOk] at hok
      | netThrow => simp [FetchOutcome.isOk] at hok

/-- C7 witness: the offline enqueue and the failed-session-append enqueue at
concrete inputs. -/
theorem C7_amended_witness :
    (updateWorkoutDataJS false "2024-03-14" "3/14" sampleWorkoutC .badStatus
      .badStatus).queueAdds = [⟨"2024-03-14", sampleWorkoutC⟩] ∧
    (updateWorkoutDataJS true "2024-03-14" "3/14" sampleWorkoutC .badStatus
      .badStatus).queueAdds = [⟨"2024-03-14", sampleWorkoutC⟩] :=
  ⟨(C7_amended "2024-03-14" "3/14" sampleWorkoutC .badStatus .badStatus).1,
    ((C7_amended "2024-03-14" "3/14" sampleWorkoutC .badStatus .badStatus).2.1
      (by decide) (by decide)).1⟩

/-! ## Cell-access lemmas for the codec -/

theorem cell_eq_get? (l : List String) (i : Nat) : cell l i = (l.get? i).getD "" := by
  simp [cell, List.getD_eq_getElem?_getD, List.get?_eq_getElem?]

theorem cell_set_ne {m n : Nat} (h : m ≠ n) (l : List String) (v : String) :
    cell (l.set m v) n = cell l n := by
  rw [cell_eq_get?, cell_eq_get?, List.get?_set_ne v l h]

theorem cell_set_self {n : Nat} {l : List String} (h : n < l.length) (v : String) :
    cell (l.set n v) n = v := by
  rw [cell_eq_get?, List.get?_set_eq_of_lt v h]
  rfl

theorem cell_replicate (n j : Nat) : cell (List.replicate n "") j = "" := by
  rw [cell_eq_get?]
  cases hg : (List.replicate n ("" : String)).get? j with
  | none => rfl
  | some x =>
      have hx : x ∈ List.replicate n ("" : String) := List.get?_mem hg
      rw [List.eq_of_mem_replicate hx]
      rfl

theorem natToString_ne_empty (n : Nat) : natToString n ≠ "" := by
  by_cases h : n = 0
  · subst h; decide
  · intro hcontra
    have hne : natDigitsRev n ≠ [] := natDigitsRevFuel_ne_nil n n (Nat.pos_of_ne_zero h) le_rfl
    have : (natToString n).toList = (natDigitsRev n).reverse.map digitChar := by
      simp [natToString, h, List.asString]
    rw [hcontra] at this
    have : (natDigitsRev n).reverse.map digitChar = [] := this.symm
    simp at this
    exact hne this

theorem intToString_ne_empty (i : Int) : intToString i ≠ "" := by
  by_cases hneg : i < 0
  · intro hcontra
    have : (intToString i).toList = '-' :: (natToString i.natAbs).toList := by
      simp [intToString, hneg, toList_eq_data, String.data_append]
    rw [hcontra] at this
    cases this
  · simpa [intToString, hneg] using natToString_ne_empty i.natAbs

/-- Round trips used by the codec claims. -/
theorem parseIntOrZero_intToString (i : Int) : parseIntOrZero (intToString i) = i := by
  simp [parseIntOrZero, jsParseInt_intToString]

theorem parseFloatOrZero_ratToString {q : ℚ} (h : IsDecimalRat q) :
    parseFloatOrZero (ratToString q) = q := by
  simp [parseFloatOrZero, jsParseFloat_ratToString h]

/-! ## Claim C8 -/

/-- C8 counterexample. The claim: encoding a set list and decoding the cells
back yields an equal set list. `formatSheetData` writes the triplet at
columns 13-15 but leaves the exercise-name cell (column 8) empty, and
`parseWorkoutRow` returns `null` for a row with an empty name cell — so the
composed decode of an encoded row yields no sets at all. -/
theorem C8_counterexample :
    ((formatSheetData [{ reps := 5, weight := 100, rir := 2 }]
      defaultCardio).getD 0 []).getD 13 "" = "5" ∧
    ((formatSheetData [{ reps := 5, weight := 100, rir := 2 }]
      defaultCardio).getD 0 []).getD 8 "" = "" ∧
    parseWorkoutRow ((formatSheetData [{ reps := 5, weight := 100, rir := 2 }]
      defaultCardio).getD 0 []) = none := by
  decide

/-- C8 (amended): for every set list, `formatSheetData` produces one row per
set whose cells at the fixed offsets 13/14/15 hold that set's printed reps,
weight and rir; decoding just those triplet cells (the set-extraction phase
of `parseWorkoutRow`) recovers exactly that set — reps, weight and rir
preserved (for weights expressible in decimal notation, which is every exact
float value); but the encoder leaves the exercise-name cell empty, so the
composed `parseWorkoutRow` returns `null` on every encoded row and the full
encode-decode round trip yields no sets. -/
theorem C8_amended (sets : List SetEntry) (cardio : CardioSession) (i : Nat)
    (hi : i < sets.length) (hdec : IsDecimalRat (sets.get ⟨i, hi⟩).weight) :
    ∃ row, (formatSheetData sets cardio).get? i = some row ∧
      cell row 8 = "" ∧
      parseWorkoutRow row = none ∧
      cell row 13 = intToString (sets.get ⟨i, hi⟩).reps ∧
      cell row 14 = ratToString (sets.get ⟨i, hi⟩).weight ∧
      cell row 15 = intToString (sets.get ⟨i, hi⟩).rir ∧
      rowSetsWT row = [sets.get ⟨i, hi⟩] := by
  set s := sets.get ⟨i, hi⟩ with hs
  set row : List String := (((List.replicate 38 "").set 13 (intToString s.reps)).set 14
    (ratToString s.weight)).set 15 (intToString s.rir) with hrow
  have hlen1 : ((List.replicate 38 ("" : String)).set 13 (intToString s.reps)).length = 38 := by
    simp
  have hlen2 : (((List.replicate 38 ("" : String)).set 13 (intToString s.reps)).set 14
      (ratToString s.weight)).length = 38 := by
    simp
  have hc13 : cell row 13 = intToString s.reps := by
    rw [hrow, cell_set_ne (by omega), cell_set_ne (by omega),
      cell_set_self (by simp) _]
  have hc14 : cell row 14 = ratToString s.weight := by
    rw [hrow, cell_set_ne (by omega), cell_set_self (by rw [hlen1]; omega) _]
  have hc15 : cell row 15 = intToString s.rir := by
    rw [hrow, cell_set_self (by rw [hlen2]; omega) _]
  have hother : ∀ j, j ≠ 13 → j ≠ 14 → j ≠ 15 → cell row j = "" := by
    intro j h13 h14 h15
    rw [hrow, cell_set_ne (by omega), cell_set_ne (by omega), cell_set_ne (by omega),
      cell_replicate]
  have hc8 : cell row 8 = "" := hother 8 (by omega) (by omega) (by omega)
  have hget : (formatSheetData sets cardio).get? i = some row := by
    have hmap : i < (sets.map (fun s =>
        (((List.replicate 38 "").set 13 (intToString s.reps)).set 14
          (ratToString s.weight)).set 15 (intToString s.rir))).length := by
      simpa using hi
    rw [formatSheetData, List.get?_append hmap, List.get?_map,
      List.get?_eq_get hi]
    rfl
  have hparse : parseWorkoutRow row = none := by
    simp [parseWorkoutRow, hc8, jsTruthy]
  have hsets : rowSetsWT row = [s] := by
    have h16 : cell row 16 = "" := hother 16 (by omega) (by omega) (by omega)
    have h19 : cell row 19 = "" := hother 19 (by omega) (by omega) (by omega)
    have ht13 : jsTruthy (cell row 13) = true := by
      simp [hc13, jsTruthy, intToString_ne_empty]
    simp only [rowSetsWT, setColumnsWT, List.filterMap_cons, List.filterMap_nil,
      ht13, h16, h19, if_pos, if_neg, jsTruthy]
    simp only [hc13, hc14, hc15]
    rw [parseIntOrZero_intToString, parseFloatOrZero_ratToString hdec,
      parseIntOrZero_intToString]
    simp [intToString_ne_empty s.reps]
  exact ⟨row, hget, hc8, hparse, hc13, hc14, hc15, hsets⟩

/-- C8 witness: the amended statement instantiated at the one-set list. -/
theorem C8_amended_witness :
    ∃ row, (formatSheetData [{ reps := 5, weight := 100, rir := 2 }]
        defaultCardio).get? 0 = some row ∧
      cell row 8 = "" ∧
      parseWorkoutRow row = none ∧
      cell row 13 = intToString (5 : Int) ∧
      cell row 14 = ratToString (100 : ℚ) ∧
      cell row 15 = intToString (2 : Int) ∧
      rowSetsWT row = [{ reps := 5, weight := 100, rir := 2 }] :=
  C8_amended [{ reps := 5, weight := 100, rir := 2 }] defaultCardio 0 (by decide)
    (by decide)

end WorkoutTracker
